import Mathlib

/-! CopyFlow front end: application state, submission and result view.

A shallow embedding of `frontend/src/App.jsx`.  JavaScript values are an
inductive type, the React state of `CopyFlowApp` is a record, every handler is
a function on that record, and every JSX expression that reads the result is a
function from the raw result to the value handed to React, or to `none` when
evaluating it raises an error.
-/

namespace CopyFlow

/-! ## JavaScript values -/

/-- A JavaScript number: a finite value, as a rational (both zeros are
`fin 0`; the rounding of doubles is not modelled, and the operations that
round are fields of `Host`), or one of the three values that are not finite. -/
inductive JSNum where
  | nan
  | posInf
  | negInf
  | fin (q : ℚ)
  deriving DecidableEq

/-- A JavaScript value as the view can meet it: the values `JSON.parse`
produces, and `undefined`, which reading a missing property produces.
An object is its list of own properties, in enumeration order. -/
inductive JSVal where
  | undefined
  | null
  | bool (b : Bool)
  | num (n : JSNum)
  | str (s : String)
  | arr (xs : List JSVal)
  | obj (kvs : List (String × JSVal))

/-- The engine-dependent parts of the host JavaScript environment: number
formatting and parsing on doubles, and the text of the errors the engine
raises. -/
structure Host where
  /-- The result of `Number::toString` in radix 10. -/
  numToString : JSNum → String
  /-- The result of `StringToNumber`. -/
  strToNum : String → JSNum
  /-- The result of `Math.round(x * 100)` on a finite double `x`. -/
  roundMul100 : ℚ → JSNum
  /-- The message of the TypeError raised by reading property `p` of `null`
  (`true`) or `undefined` (`false`). -/
  readNullishMsg : Bool → String → String
  /-- The message of the TypeError raised when an object has no primitive
  value. -/
  toPrimitiveMsg : String

/-- The conversion `ToBoolean` of a number: zero and NaN are falsy. -/
def JSNum.truthy : JSNum → Bool
  | .nan => false
  | .fin q => decide (q ≠ 0)
  | _ => true

/-- The conversion `ToBoolean`: `undefined`, `null`, `false`, `0`, `NaN` and
`''` are falsy, every other value (every array and object too) is truthy. -/
def JSVal.truthy : JSVal → Bool
  | .undefined => false
  | .null => false
  | .bool b => b
  | .num n => n.truthy
  | .str s => decide (s ≠ "")
  | .arr _ => true
  | .obj _ => true

/-- Whether a value is `null` or `undefined`. -/
def JSVal.nullish : JSVal → Bool
  | .undefined => true
  | .null => true
  | _ => false

/-- The operator `a || b` on values that are already evaluated (every right
operand in the source is a literal). -/
def jsOr (a b : JSVal) : JSVal :=
  if a.truthy then a else b

/-- The own property `k` of an object literal or parsed object. -/
def lookupKey (k : String) : List (String × JSVal) → Option JSVal
  | [] => none
  | (k', v) :: rest => if k' = k then some v else lookupKey k rest

/-- The number of UTF-16 code units of a string, its JavaScript `length`. -/
def utf16Length (s : String) : Nat :=
  (s.toList.map fun c => if c.toNat < 65536 then 1 else 2).sum

/-- A natural number as a JavaScript number. -/
def JSVal.ofNat (n : Nat) : JSVal :=
  .num (.fin (n : ℚ))

/-- The property read `v.p` for a value `v` that is neither `null` nor
`undefined`, restricted to the property names the source reads: `length` is
defined on arrays and strings, every other name is an own property of an
object or is `undefined` (the methods `map`, `slice`, `replace` and `toFixed`
are modelled at their call sites). -/
def JSVal.prop (v : JSVal) (p : String) : JSVal :=
  match v with
  | .obj kvs => (lookupKey p kvs).getD .undefined
  | .arr xs => if p = "length" then JSVal.ofNat xs.length else .undefined
  | .str s => if p = "length" then JSVal.ofNat (utf16Length s) else .undefined
  | _ => .undefined

/-- The property read `v.p`: a TypeError on `null` and `undefined`. -/
def getProp (h : Host) (v : JSVal) (p : String) : Except String JSVal :=
  match v with
  | .null => .error (h.readNullishMsg true p)
  | .undefined => .error (h.readNullishMsg false p)
  | _ => .ok (v.prop p)

/-- The optional read `v?.p`: `undefined` on `null` and `undefined`. -/
def optProp (v : JSVal) (p : String) : JSVal :=
  if v.nullish then .undefined else v.prop p

mutual
/-- The conversion `ToString`.  A parsed object has no callable own property,
so one that has an own `toString` has no primitive value; every other object
is `[object Object]`.  An array is its elements joined by commas. -/
def toStr (h : Host) : JSVal → Except String String
  | .undefined => .ok "undefined"
  | .null => .ok "null"
  | .bool b => .ok (if b then "true" else "false")
  | .num n => .ok (h.numToString n)
  | .str s => .ok s
  | .arr xs => joinStr h xs
  | .obj kvs =>
    if (kvs.map Prod.fst).contains "toString" then .error h.toPrimitiveMsg
    else .ok "[object Object]"
/-- The method `Array.prototype.join` with the default separator: `null` and
`undefined` elements are written as the empty string. -/
def joinStr (h : Host) : List JSVal → Except String String
  | [] => .ok ""
  | x :: rest =>
    match (if x.nullish then .ok "" else toStr h x) with
    | .error e => .error e
    | .ok sx =>
      match rest with
      | [] => .ok sx
      | _ :: _ =>
        match joinStr h rest with
        | .error e => .error e
        | .ok sr => .ok (sx ++ "," ++ sr)
end

/-! ## Application state -/

/-- The draft `formData`: an object whose values are strings, as a list of own
properties in insertion order. -/
abbrev FormData := List (String × String)

/-- The read `formData.k`: `undefined` when the draft has no such property. -/
def FormData.field (fd : FormData) (k : String) : JSVal :=
  match fd.lookup k with
  | some v => .str v
  | none => .undefined

/-- The object `{ ...formData, [k]: v }`: an existing property keeps its
place and takes the new value, a new property is added last. -/
def FormData.assign (k v : String) : FormData → FormData
  | [] => [(k, v)]
  | (k', v') :: rest =>
    if k' = k then (k, v) :: rest else (k', v') :: FormData.assign k v rest

/-- The React state of `CopyFlowApp` (the nine `useState` cells), and what the
component has pending in the browser: the number of
`setTimeout(() => setShowResults(true), 300)` callbacks that are scheduled and
have not fired yet, whether the interval of the startup effect is still set,
the number of `setTimeout(() => setInitialLoading(false), 500)` callbacks that
are scheduled and have not fired yet, whether the health probe has not settled
yet, and the number of `handleSubmit` calls suspended at an `await`. -/
structure AppState where
  formData : FormData
  loading : Bool
  initialLoading : Bool
  loadingProgress : Nat
  result : JSVal
  error : String
  backendStatus : String
  activeTab : String
  showResults : Bool
  pendingShow : Nat
  intervalActive : Bool
  pendingReady : Nat
  probePending : Bool
  inFlight : Nat

/-- The state after the first render and the startup effect: the initial
values passed to `useState`, the interval set and the health probe sent. -/
def initialState : AppState where
  formData := [("name", ""), ("category", ""), ("description", ""),
    ("price", ""), ("target_audience", "")]
  loading := false
  initialLoading := true
  loadingProgress := 0
  result := .null
  error := ""
  backendStatus := "checking"
  activeTab := "overview"
  showResults := false
  pendingShow := 0
  intervalActive := true
  pendingReady := 0
  probePending := true
  inFlight := 0

/-- The handler `handleChange` for an event whose target has the given `name`
and `value`. -/
def handleChange (name value : String) (s : AppState) : AppState :=
  { s with formData := s.formData.assign name value }

/-- The `disabled` attribute of the submit button:
`loading || backendStatus !== 'connected' || !formData.name ||
!formData.category || !formData.description`. -/
def submitDisabled (s : AppState) : Bool :=
  s.loading || s.backendStatus != "connected" || !(s.formData.field "name").truthy ||
    !(s.formData.field "category").truthy || !(s.formData.field "description").truthy

/-! ## Submission -/

/-- How the request of `handleSubmit` settles: `fetch` rejects with an error
carrying a message, or resolves to a response with a status whose `json()`
either resolves to the parsed body or rejects with an error carrying a
message. -/
inductive FetchOutcome where
  | rejected (message : String)
  | response (status : Nat) (body : Except String JSVal)

/-- The getter `response.ok`: the status is in the range 200 to 299. -/
def responseOk (status : Nat) : Bool :=
  decide (200 ≤ status) && decide (status ≤ 299)

/-- The expression `new Error(v).message`. -/
def newErrorMessage (h : Host) (v : JSVal) : Except String String :=
  match v with
  | .undefined => .ok ""
  | _ => toStr h v

/-- The template literal of the generic message. -/
def httpErrorMessage (status : Nat) : String :=
  "HTTP error! status: " ++ toString status

/-- The `try` block of `handleSubmit`: the parsed body it reaches `setResult`
with, or the message of the error it throws. -/
def submitTry (h : Host) : FetchOutcome → Except String JSVal
  | .rejected message => .error message
  | .response status body =>
    if responseOk status then
      body
    else
      match body with
      | .error message => .error message
      | .ok errorData =>
        match getProp h errorData "detail" with
        | .error message => .error message
        | .ok detail =>
          match newErrorMessage h (jsOr detail (.str (httpErrorMessage status))) with
          | .error message => .error message
          | .ok message => .error message

/-- The synchronous prefix of `handleSubmit`, up to the first `await`. -/
def submitBegin (s : AppState) : AppState :=
  { s with loading := true, error := "", result := .null, showResults := false }

/-- The rest of `handleSubmit`, run when the request has settled: the end of
the `try` block or the `catch` block, then the `finally` block. -/
def submitSettle (h : Host) (o : FetchOutcome) (s : AppState) : AppState :=
  let s1 : AppState :=
    match submitTry h o with
    | .ok data => { s with result := data, pendingShow := s.pendingShow + 1 }
    | .error message => { s with error := message }
  { s1 with loading := false }

/-- The handler `handleSubmit`, from the click to the end of `finally`. -/
def handleSubmit (h : Host) (o : FetchOutcome) (s : AppState) : AppState :=
  submitSettle h o (submitBegin s)

/-- The number of `await` expressions `handleSubmit` suspends at. -/
def awaitCount : FetchOutcome → Nat
  | .rejected _ => 1
  | .response _ _ => 2

/-- The state of the component each time `handleSubmit` is suspended at an
`await`, followed by the state when the call has settled. -/
def handleSubmitTrace (h : Host) (o : FetchOutcome) (s : AppState) : List AppState :=
  List.replicate (awaitCount o) (submitBegin s) ++ [handleSubmit h o s]

/-- The callback of the 300 ms timer set by `handleSubmit`. -/
def showTimerFires (s : AppState) : AppState :=
  if s.pendingShow = 0 then s
  else { s with showResults := true, pendingShow := s.pendingShow - 1 }

/-- The click handler of the New Analysis button. -/
def newAnalysis (s : AppState) : AppState :=
  { s with showResults := false, result := .null }

/-- The click handler `() => setActiveTab(tab.id)` of a tab button. -/
def selectTab (id : String) (s : AppState) : AppState :=
  { s with activeTab := id }

/-- A host with the error texts of V8.  Its `numToString` is the decimal
numeral on integers and its other numeric fields are constant; they stand for
an arbitrary engine in the examples. -/
def sampleHost : Host where
  numToString := fun n =>
    match n with
    | .nan => "NaN"
    | .posInf => "Infinity"
    | .negInf => "-Infinity"
    | .fin q => toString q.num
  strToNum := fun _ => .nan
  roundMul100 := fun q => .fin (q * 100)
  readNullishMsg := fun isNull p =>
    "Cannot read properties of " ++ (if isNull then "null" else "undefined") ++
      " (reading \x27" ++ p ++ "\x27)"
  toPrimitiveMsg := "Cannot convert object to primitive value"

/-! ## The result view: fallback expressions -/

/-- An array literal of string literals. -/
def strArr (xs : List String) : JSVal :=
  .arr (xs.map .str)

/-- A number literal with two decimals, given in hundredths. -/
def hundredths (n : Nat) : JSVal :=
  .num (.fin ((n : ℚ) / 100))

/-- The literal right of `||` for the recommended tones. -/
def defaultTargetTones : JSVal :=
  strArr ["Professional", "Friendly", "Energetic"]

/-- The literal right of `||` for the key value propositions. -/
def defaultKeyValuePropositions : JSVal :=
  strArr ["Boost your confidence with premium quality",
    "Experience cutting-edge innovation",
    "Exceptional quality at unbeatable value"]

/-- The literal right of `||` for the core message. -/
def defaultCoreMessage : JSVal :=
  .str "Focus on innovation and quality to capture your target audience"

/-- The literal right of `||` for the success metrics. -/
def defaultSuccessMetrics : JSVal :=
  strArr ["engagement_rate", "conversion_rate", "brand_recall"]

/-- One object literal of the default similar products. -/
def defaultProduct (name : String) (price similarity : Nat) (features : List String)
    (score : Nat) : JSVal :=
  .obj [("name", .str name), ("category", .str "Electronics"), ("price", hundredths price),
    ("similarity", hundredths similarity), ("shared_features", strArr features),
    ("marketing_performance", .obj [("average_score", hundredths score)])]

/-- The literal right of `||` for the similar products. -/
def defaultSimilarProducts : JSVal :=
  .arr [
    defaultProduct "Premium Product A" 14999 92 ["wireless", "premium", "innovative", "quality"] 850,
    defaultProduct "Smart Device B" 19999 88 ["smart", "efficient", "modern", "reliable"] 820,
    defaultProduct "Tech Solution C" 12999 85 ["advanced", "powerful", "compact", "durable"] 870]

/-- The literal right of `||` for the platform content. -/
def defaultPlatformContent : JSVal :=
  .obj [("Instagram", .obj [
    ("caption_templates", strArr [
      "✨ Introducing the future of [category]!\n\n🚀 Key Features:\n• Feature 1\n• Feature 2\n• Feature 3\n\nReady to upgrade? 🔥\n\n#innovation #quality #musthave",
      "🎯 What makes this special?\n\nIt\x27s not just another product – it\x27s a game-changer! 💫\n\nSwipe to see why everyone\x27s talking about it 👉\n\n#trending #tech #lifestyle"]),
    ("hashtag_strategy", .obj [("primary", strArr ["#ProductName", "#Category", "#Brand"])])])]

/-- The literal right of `||` for the predicted engagement. -/
def defaultPredictedEngagement : JSVal :=
  .str "8.2"

/-- The literal right of `||` for the confidence level. -/
def defaultConfidenceLevel : JSVal :=
  .str "High"

/-- The literal right of `||` for the key success factors. -/
def defaultKeySuccessFactors : JSVal :=
  strArr ["Strong professional tone resonates with target audience",
    "Focus on innovation and quality features",
    "Instagram optimization increases visibility"]

/-- The literal right of `||` for the performance tracking list. -/
def defaultPerformanceTracking : JSVal :=
  strArr ["Engagement rate per platform", "Conversion rate from CTAs",
    "Audience growth rate", "Content shareability"]

/-- The literal right of `||` for the optimization tips. -/
def defaultOptimizationTips : JSVal :=
  strArr ["A/B test different tones weekly", "Monitor competitor strategies",
    "Engage with user comments promptly", "Update content based on performance data"]

/-- The read `result?.a?.b`. -/
def read2 (result : JSVal) (a b : String) : JSVal :=
  optProp (optProp result a) b

/-- The expression `result?.marketing_strategy?.target_tones || [...]`. -/
def targetTones (result : JSVal) : JSVal :=
  jsOr (read2 result "marketing_strategy" "target_tones") defaultTargetTones

/-- The expression `result?.marketing_strategy?.key_value_propositions || [...]`. -/
def keyValuePropositions (result : JSVal) : JSVal :=
  jsOr (read2 result "marketing_strategy" "key_value_propositions") defaultKeyValuePropositions

/-- The expression `result?.marketing_strategy?.core_message || '...'`. -/
def coreMessage (result : JSVal) : JSVal :=
  jsOr (read2 result "marketing_strategy" "core_message") defaultCoreMessage

/-- The expression `result?.marketing_strategy?.success_metrics || [...]`. -/
def successMetrics (result : JSVal) : JSVal :=
  jsOr (read2 result "marketing_strategy" "success_metrics") defaultSuccessMetrics

/-- The expression `result?.similar_products || [...]`. -/
def similarProducts (result : JSVal) : JSVal :=
  jsOr (optProp result "similar_products") defaultSimilarProducts

/-- The expression `result?.platform_content || {...}`. -/
def platformContent (result : JSVal) : JSVal :=
  jsOr (optProp result "platform_content") defaultPlatformContent

/-- The expression `result?.performance_insights?.predicted_engagement || '8.2'`. -/
def predictedEngagement (result : JSVal) : JSVal :=
  jsOr (read2 result "performance_insights" "predicted_engagement") defaultPredictedEngagement

/-- The expression `result?.performance_insights?.confidence_level || 'High'`, of
the Confidence metric card and of the insights panel. -/
def confidenceLevel (result : JSVal) : JSVal :=
  jsOr (read2 result "performance_insights" "confidence_level") defaultConfidenceLevel

/-- The expression `result?.performance_insights?.key_success_factors || [...]`. -/
def keySuccessFactors (result : JSVal) : JSVal :=
  jsOr (read2 result "performance_insights" "key_success_factors") defaultKeySuccessFactors

/-- The expression `result?.implementation_guide?.performance_tracking || [...]`. -/
def performanceTracking (result : JSVal) : JSVal :=
  jsOr (read2 result "implementation_guide" "performance_tracking") defaultPerformanceTracking

/-- The expression `result?.implementation_guide?.optimization_tips || [...]`. -/
def optimizationTips (result : JSVal) : JSVal :=
  jsOr (read2 result "implementation_guide" "optimization_tips") defaultOptimizationTips

/-- The value of the Similar Products metric card,
`result?.similar_products?.length || 3`. -/
def similarProductsMetric (result : JSVal) : JSVal :=
  jsOr (read2 result "similar_products" "length") (JSVal.ofNat 3)

/-- The value of the Platforms metric card,
`result?.marketing_strategy?.target_tones?.length || 3`. -/
def platformsMetric (result : JSVal) : JSVal :=
  jsOr (optProp (read2 result "marketing_strategy" "target_tones") "length") (JSVal.ofNat 3)

/-- The expression `result?.input_product?.name` of the heading. -/
def inputProductName (result : JSVal) : JSVal :=
  read2 result "input_product" "name"

/-- The eleven fields the result view reads through a fallback expression. -/
structure NormalizedResult where
  targetTones : JSVal
  keyValuePropositions : JSVal
  coreMessage : JSVal
  successMetrics : JSVal
  similarProducts : JSVal
  platformContent : JSVal
  predictedEngagement : JSVal
  confidenceLevel : JSVal
  keySuccessFactors : JSVal
  performanceTracking : JSVal
  optimizationTips : JSVal

/-- The view model of a raw result: the value of each fallback expression of
the result view. -/
def normalize (result : JSVal) : NormalizedResult where
  targetTones := targetTones result
  keyValuePropositions := keyValuePropositions result
  coreMessage := coreMessage result
  successMetrics := successMetrics result
  similarProducts := similarProducts result
  platformContent := platformContent result
  predictedEngagement := predictedEngagement result
  confidenceLevel := confidenceLevel result
  keySuccessFactors := keySuccessFactors result
  performanceTracking := performanceTracking result
  optimizationTips := optimizationTips result

/-- The values a raw result supplies for the eleven fields: the left operand
of each fallback expression. -/
def supplied (result : JSVal) : NormalizedResult where
  targetTones := read2 result "marketing_strategy" "target_tones"
  keyValuePropositions := read2 result "marketing_strategy" "key_value_propositions"
  coreMessage := read2 result "marketing_strategy" "core_message"
  successMetrics := read2 result "marketing_strategy" "success_metrics"
  similarProducts := optProp result "similar_products"
  platformContent := optProp result "platform_content"
  predictedEngagement := read2 result "performance_insights" "predicted_engagement"
  confidenceLevel := read2 result "performance_insights" "confidence_level"
  keySuccessFactors := read2 result "performance_insights" "key_success_factors"
  performanceTracking := read2 result "implementation_guide" "performance_tracking"
  optimizationTips := read2 result "implementation_guide" "optimization_tips"

/-- A view model written back as a raw result: each field at the path the view
reads it from. -/
def NormalizedResult.toRaw (n : NormalizedResult) : JSVal :=
  .obj [
    ("similar_products", n.similarProducts),
    ("marketing_strategy", .obj [
      ("target_tones", n.targetTones),
      ("key_value_propositions", n.keyValuePropositions),
      ("core_message", n.coreMessage),
      ("success_metrics", n.successMetrics)]),
    ("platform_content", n.platformContent),
    ("performance_insights", .obj [
      ("predicted_engagement", n.predictedEngagement),
      ("confidence_level", n.confidenceLevel),
      ("key_success_factors", n.keySuccessFactors)]),
    ("implementation_guide", .obj [
      ("performance_tracking", n.performanceTracking),
      ("optimization_tips", n.optimizationTips)])]

/-- Every field of a view model is truthy. -/
def NormalizedResult.AllTruthy (n : NormalizedResult) : Prop :=
  n.targetTones.truthy = true ∧ n.keyValuePropositions.truthy = true ∧
  n.coreMessage.truthy = true ∧ n.successMetrics.truthy = true ∧
  n.similarProducts.truthy = true ∧ n.platformContent.truthy = true ∧
  n.predictedEngagement.truthy = true ∧ n.confidenceLevel.truthy = true ∧
  n.keySuccessFactors.truthy = true ∧ n.performanceTracking.truthy = true ∧
  n.optimizationTips.truthy = true

/-- No field of a view model is `undefined` or `null`. -/
def NormalizedResult.Populated (n : NormalizedResult) : Prop :=
  n.targetTones.nullish = false ∧ n.keyValuePropositions.nullish = false ∧
  n.coreMessage.nullish = false ∧ n.successMetrics.nullish = false ∧
  n.similarProducts.nullish = false ∧ n.platformContent.nullish = false ∧
  n.predictedEngagement.nullish = false ∧ n.confidenceLevel.nullish = false ∧
  n.keySuccessFactors.nullish = false ∧ n.performanceTracking.nullish = false ∧
  n.optimizationTips.nullish = false

/-! ## The result view: panels

A panel is the function from the raw result to what it hands to React, or
`none` when evaluating it raises an error: a TypeError of the JSX expression
itself, or the error React raises for a plain object used as a child.  The
index argument of the `map` callbacks only sets keys and animation delays and
is left out. -/

mutual
/-- Whether React accepts a value as a child: a plain object is rejected, an
array is accepted when its elements are. -/
def validChild : JSVal → Bool
  | .obj _ => false
  | .arr xs => validChildren xs
  | _ => true
/-- Whether React accepts every value of a list as a child. -/
def validChildren : List JSVal → Bool
  | [] => true
  | x :: rest => validChild x && validChildren rest
end

/-- The JSX child `{v}`. -/
def child (v : JSVal) : Option JSVal :=
  if validChild v then some v else none

/-- The callback `f` applied from left to right, stopping at the first error. -/
def mapOption {α β : Type} (f : α → Option β) : List α → Option (List β)
  | [] => some []
  | x :: rest =>
    match f x with
    | none => none
    | some y =>
      match mapOption f rest with
      | none => none
      | some ys => some (y :: ys)

/-- The call `v.map(f)`: only an array has a callable `map`. -/
def jsMap {β : Type} (f : JSVal → Option β) : JSVal → Option (List β)
  | .arr xs => mapOption f xs
  | _ => none

/-- The call `v.slice(0, n).map(x => {x})`: a string has `slice` but its
result has no `map`, and no other value than an array has a callable `slice`. -/
def sliceMap (n : Nat) : JSVal → Option (List JSVal)
  | .arr xs => mapOption child (xs.take n)
  | _ => none

/-- The characters of `s.replace('_', ' ')`: a string pattern replaces the
first occurrence only. -/
def replaceFirstUnderscore : List Char → List Char
  | [] => []
  | c :: cs => if c = '_' then ' ' :: cs else c :: replaceFirstUnderscore cs

/-- The call `metric.replace('_', ' ')`: only a string has a callable
`replace`. -/
def metricLabel : JSVal → Option String
  | .str s => some (String.mk (replaceFirstUnderscore s.toList))
  | _ => none

/-- What the overview panel displays. -/
structure OverviewView where
  tones : List JSVal
  valuePropositions : List JSVal
  coreMessage : JSVal
  successMetrics : List String

/-- The panel rendered when `activeTab === 'overview'`. -/
def overviewPanel (result : JSVal) : Option OverviewView := do
  let tones ← jsMap child (targetTones result)
  let props ← jsMap child (keyValuePropositions result)
  let message ← child (coreMessage result)
  let metrics ← jsMap metricLabel (successMetrics result)
  pure { tones := tones, valuePropositions := props, coreMessage := message,
         successMetrics := metrics }

/-- The conversion `ToNumber`, `none` when the value has no primitive value
(see `toStr`). -/
def toNumber (h : Host) : JSVal → Option JSNum
  | .undefined => some .nan
  | .null => some (.fin 0)
  | .bool b => some (.fin (if b then 1 else 0))
  | .num n => some n
  | .str s => some (h.strToNum s)
  | .arr xs =>
    match joinStr h xs with
    | .ok s => some (h.strToNum s)
    | .error _ => none
  | .obj kvs => if (kvs.map Prod.fst).contains "toString" then none else some .nan

/-- The expression `Math.round(x * 100)` on a number. -/
def roundPercent (h : Host) : JSNum → JSNum
  | .fin q => h.roundMul100 q
  | n => n

/-- The call `x.toFixed(1)` on a number: the nearest tenth, the larger one at
a tie, of the magnitude, after the sign. -/
def toFixed1 (h : Host) : JSNum → String
  | .nan => "NaN"
  | .posInf => "Infinity"
  | .negInf => "-Infinity"
  | .fin q =>
    (if q < 0 then "-" else "") ++
      (if (10 : ℚ) ^ 21 ≤ |q| then h.numToString (.fin |q|)
       else toString ((⌊|q| * 10 + 1 / 2⌋).toNat / 10) ++ "." ++
         toString ((⌊|q| * 10 + 1 / 2⌋).toNat % 10))

/-- The expression
`product.marketing_performance?.average_score?.toFixed(1) || '8.5'`: reading
`marketing_performance` of a product that is `null` or `undefined` raises a
TypeError, and only a number has a callable `toFixed`. -/
def performanceScore (h : Host) (product : JSVal) : Option JSVal :=
  if product.nullish then none
  else
    match optProp (product.prop "marketing_performance") "average_score" with
    | .undefined => some (.str "8.5")
    | .null => some (.str "8.5")
    | .num n => some (jsOr (.str (toFixed1 h n)) (.str "8.5"))
    | _ => none

/-- What a product card displays: the number before `% Match`, the name, the
category, the price (shown after `$` when truthy, itself the child otherwise),
the features (`none` when `shared_features` is `null` or `undefined`) and the
score before `/10`. -/
structure ProductCardView where
  matchPercent : JSNum
  name : JSVal
  category : JSVal
  price : JSVal
  sharedFeatures : Option (List JSVal)
  performance : JSVal

/-- The component `ProductCard`. -/
def productCard (h : Host) (product : JSVal) : Option ProductCardView :=
  if product.nullish then none
  else do
    let similarity ← toNumber h (product.prop "similarity")
    let name ← child (product.prop "name")
    let category ← child (product.prop "category")
    let price ← child (product.prop "price")
    let features ←
      if (product.prop "shared_features").nullish then some none
      else (sliceMap 4 (product.prop "shared_features")).map some
    let performance ← performanceScore h product
    pure { matchPercent := roundPercent h similarity, name := name, category := category,
           price := price, sharedFeatures := features, performance := performance }

/-- The panel rendered when `activeTab === 'similar'`. -/
def similarPanel (h : Host) (result : JSVal) : Option (List ProductCardView) :=
  jsMap (productCard h) (similarProducts result)

/-- The call `Object.entries(v)` on a truthy value: the own properties of an
object, the indexed elements of an array, the indexed characters of a string
(a character outside the Basic Multilingual Plane is kept whole), nothing for
a number or a boolean. -/
def objectEntries : JSVal → List (String × JSVal)
  | .obj kvs => kvs
  | .arr xs => xs.enum.map fun ix => (toString ix.1, ix.2)
  | .str s => s.toList.enum.map fun ic => (toString ic.1, .str (String.singleton ic.2))
  | _ => []

/-- What the block of one platform displays: its name, the first two caption
templates (`none` when `caption_templates` is falsy and the block has only its
heading), whether the hashtag block is there, and its primary hashtags (`none`
when `primary` is `null` or `undefined`). -/
structure PlatformView where
  platform : String
  captions : Option (List JSVal)
  hashtagBlock : Bool
  primary : Option (List JSVal)

/-- The callback `([platform, content], idx) => ...` of the content panel. -/
def platformBlock (entry : String × JSVal) : Option PlatformView :=
  if entry.2.nullish then none
  else if !(entry.2.prop "caption_templates").truthy then
    some { platform := entry.1, captions := none, hashtagBlock := false, primary := none }
  else do
    let captions ← sliceMap 2 (entry.2.prop "caption_templates")
    if !(entry.2.prop "hashtag_strategy").truthy then
      pure { platform := entry.1, captions := some captions, hashtagBlock := false,
             primary := none }
    else if ((entry.2.prop "hashtag_strategy").prop "primary").nullish then
      pure { platform := entry.1, captions := some captions, hashtagBlock := true,
             primary := none }
    else do
      let tags ← jsMap child ((entry.2.prop "hashtag_strategy").prop "primary")
      pure { platform := entry.1, captions := some captions, hashtagBlock := true,
             primary := some tags }

/-- The panel rendered when `activeTab === 'content'`. -/
def contentPanel (result : JSVal) : Option (List PlatformView) :=
  mapOption platformBlock (objectEntries (platformContent result))

/-- What the insights panel displays. -/
structure InsightsView where
  predictedEngagement : JSVal
  confidenceLevel : JSVal
  keySuccessFactors : List JSVal
  performanceTracking : List JSVal
  optimizationTips : List JSVal

/-- The panel rendered when `activeTab === 'insights'`. -/
def insightsPanel (result : JSVal) : Option InsightsView := do
  let engagement ← child (predictedEngagement result)
  let confidence ← child (confidenceLevel result)
  let factors ← jsMap child (keySuccessFactors result)
  let tracking ← jsMap child (performanceTracking result)
  let tips ← jsMap child (optimizationTips result)
  pure { predictedEngagement := engagement, confidenceLevel := confidence,
         keySuccessFactors := factors, performanceTracking := tracking,
         optimizationTips := tips }

/-! ## Sample results and expected types -/

/-- The success payload of the scenario of the specification:
`{ "input_product": {"name":"Smart Mug"}, "similar_products": [] }`. -/
def smartMugResult : JSVal :=
  .obj [("input_product", .obj [("name", .str "Smart Mug")]), ("similar_products", .arr [])]

/-- The same payload without `similar_products`. -/
def smartMugNoSimilar : JSVal :=
  .obj [("input_product", .obj [("name", .str "Smart Mug")])]

/-- A success payload in which every field the view reads is present, with
the given predicted engagement. -/
def completeResult (engagement : JSVal) : JSVal :=
  .obj [
    ("input_product", .obj [("name", .str "Smart Mug")]),
    ("similar_products", .arr [
      .obj [("name", .str "Travel Mug"), ("category", .str "Kitchen"),
        ("price", hundredths 2499), ("similarity", hundredths 81),
        ("shared_features", strArr ["insulated"]),
        ("marketing_performance", .obj [("average_score", hundredths 790)])]]),
    ("marketing_strategy", .obj [
      ("target_tones", strArr ["Warm"]),
      ("key_value_propositions", strArr ["Keeps drinks hot"]),
      ("core_message", .str "Hot coffee all day"),
      ("success_metrics", strArr ["click_through_rate"])]),
    ("platform_content", .obj [("Instagram", .obj [
      ("caption_templates", strArr ["Sip smarter"]),
      ("hashtag_strategy", .obj [("primary", strArr ["#SmartMug"])])])]),
    ("performance_insights", .obj [
      ("predicted_engagement", engagement),
      ("confidence_level", .str "Medium"),
      ("key_success_factors", strArr ["Clear benefit"])]),
    ("implementation_guide", .obj [
      ("performance_tracking", strArr ["Engagement rate per platform"]),
      ("optimization_tips", strArr ["Monitor competitor strategies"])])]

/-- Whether a value is a string. -/
def isStr : JSVal → Bool
  | .str _ => true
  | _ => false

/-- Whether a value is a number. -/
def isNum : JSVal → Bool
  | .num _ => true
  | _ => false

/-- Whether a value is a plain object. -/
def isObj : JSVal → Bool
  | .obj _ => true
  | _ => false

/-- Whether a value is an array of strings. -/
def isStrArr : JSVal → Bool
  | .arr xs => xs.all isStr
  | _ => false

/-- Whether a field is absent (`undefined` or `null`) or has the expected
type. -/
def absentOr (p : JSVal → Bool) (v : JSVal) : Bool :=
  v.nullish || p v

/-- Whether a value is a SimilarProduct of the data model: an object whose
`name` and `category` are strings, whose `price` and `similarity` are numbers,
whose `shared_features` is an array of strings and whose
`marketing_performance` is an object with a numeric `average_score`, each of
them possibly absent. -/
def wellTypedProduct (p : JSVal) : Bool :=
  isObj p && absentOr isStr (p.prop "name") && absentOr isStr (p.prop "category") &&
    absentOr isNum (p.prop "price") && absentOr isNum (p.prop "similarity") &&
    absentOr isStrArr (p.prop "shared_features") &&
    absentOr (fun mp => isObj mp && absentOr isNum (mp.prop "average_score"))
      (p.prop "marketing_performance")

/-- Whether a value is an array of SimilarProduct records. -/
def isProductArr : JSVal → Bool
  | .arr xs => xs.all wellTypedProduct
  | _ => false

/-- Whether a value is a PlatformContent: an object whose `caption_templates`
is an array of strings and whose `hashtag_strategy` is an object with an array
of strings as `primary`, each of them possibly absent. -/
def wellTypedContent (c : JSVal) : Bool :=
  isObj c && absentOr isStrArr (c.prop "caption_templates") &&
    absentOr (fun hs => isObj hs && absentOr isStrArr (hs.prop "primary"))
      (c.prop "hashtag_strategy")

/-- Whether a value is a mapping from platform names to PlatformContent. -/
def isContentMap : JSVal → Bool
  | .obj kvs => kvs.all fun kv => wellTypedContent kv.2
  | _ => false

/-- Whether a value is a string or a number. -/
def isStrOrNum (v : JSVal) : Bool :=
  isStr v || isNum v

/-- A raw result in which each field the view reads is absent or has the type
the data model gives it. -/
def WellTyped (result : JSVal) : Prop :=
  absentOr isStrArr (supplied result).targetTones = true ∧
  absentOr isStrArr (supplied result).keyValuePropositions = true ∧
  absentOr isStr (supplied result).coreMessage = true ∧
  absentOr isStrArr (supplied result).successMetrics = true ∧
  absentOr isProductArr (supplied result).similarProducts = true ∧
  absentOr isContentMap (supplied result).platformContent = true ∧
  absentOr isStrOrNum (supplied result).predictedEngagement = true ∧
  absentOr isStr (supplied result).confidenceLevel = true ∧
  absentOr isStrArr (supplied result).keySuccessFactors = true ∧
  absentOr isStrArr (supplied result).performanceTracking = true ∧
  absentOr isStrArr (supplied result).optimizationTips = true

/-! ## Startup, health probe and the events of a session -/

/-- The callback of the interval of the startup effect, which runs the updater
`prev => { if (prev >= 100) { clearInterval(interval); setTimeout(...);
return 100; } return prev + 10; }` on `loadingProgress`. -/
def intervalTick (s : AppState) : AppState :=
  if s.loadingProgress ≥ 100 then
    { s with intervalActive := false, pendingReady := s.pendingReady + 1,
             loadingProgress := 100 }
  else
    { s with loadingProgress := s.loadingProgress + 10 }

/-- The callback `() => setInitialLoading(false)` of the 500 ms timer. -/
def readyTimerFires (s : AppState) : AppState :=
  { s with initialLoading := false, pendingReady := s.pendingReady - 1 }

/-- How the request of `checkBackendConnection` settles: `fetch` resolves to a
response with a status, or rejects. -/
inductive ProbeOutcome where
  | response (status : Nat)
  | rejected

/-- The function `checkBackendConnection`, run when its request has settled. -/
def checkBackendConnection (o : ProbeOutcome) (s : AppState) : AppState :=
  match o with
  | .response status =>
    if responseOk status then { s with backendStatus := "connected" }
    else { s with backendStatus := "error" }
  | .rejected => { s with backendStatus := "disconnected" }

/-- The `name` attributes of the five inputs of the form. -/
def fieldNames : List String :=
  ["name", "category", "description", "price", "target_audience"]

/-- The `id`s of the four tab buttons. -/
def tabIds : List String :=
  ["overview", "similar", "content", "insights"]

/-- Whether the form is on screen: the loading screen is gone and
`showResults` is false. -/
def formShown (s : AppState) : Bool :=
  !s.initialLoading && !s.showResults

/-- Whether the results view is on screen. -/
def resultsShown (s : AppState) : Bool :=
  !s.initialLoading && s.showResults

/-- What can happen to the mounted component: a callback of the browser runs
or the user acts on an element that is on screen. -/
inductive Event where
  | tick
  | readyTimer
  | probeSettles (o : ProbeOutcome)
  | change (name value : String)
  | submitClick
  | submitSettles (o : FetchOutcome)
  | showTimer
  | newAnalysisClick
  | tabClick (id : String)

/-- Whether an event can happen in a state: a callback needs its timer,
interval or request pending, a user action needs its element on screen (and
the submit button enabled). -/
def Event.enabled (s : AppState) : Event → Bool
  | .tick => s.intervalActive
  | .readyTimer => decide (0 < s.pendingReady)
  | .probeSettles _ => s.probePending
  | .change name _ => formShown s && fieldNames.contains name
  | .submitClick => formShown s && !submitDisabled s
  | .submitSettles _ => decide (0 < s.inFlight)
  | .showTimer => decide (0 < s.pendingShow)
  | .newAnalysisClick => resultsShown s
  | .tabClick id => resultsShown s && tabIds.contains id

/-- The handler an event runs. -/
def Event.apply (h : Host) (s : AppState) : Event → AppState
  | .tick => intervalTick s
  | .readyTimer => readyTimerFires s
  | .probeSettles o => { checkBackendConnection o s with probePending := false }
  | .change name value => handleChange name value s
  | .submitClick => { submitBegin s with inFlight := s.inFlight + 1 }
  | .submitSettles o => { submitSettle h o s with inFlight := s.inFlight - 1 }
  | .showTimer => showTimerFires s
  | .newAnalysisClick => newAnalysis s
  | .tabClick id => selectTab id s

/-- One step of a session: an event that cannot happen changes nothing. -/
def step (h : Host) (s : AppState) (e : Event) : AppState :=
  if e.enabled s then e.apply h s else s

/-- The state after a sequence of events. -/
def run (h : Host) (s : AppState) (events : List Event) : AppState :=
  events.foldl (step h) s

/-- A state some sequence of events leads to from the initial state. -/
def Reachable (h : Host) (s : AppState) : Prop :=
  ∃ events, run h initialState events = s

/-- The number of interval callbacks that run in a sequence of events. -/
def ticksRun (h : Host) : AppState → List Event → Nat
  | _, [] => 0
  | s, e :: rest =>
    (match e with
      | .tick => if s.intervalActive then 1 else 0
      | _ => 0) + ticksRun h (step h s e) rest

/-- The number of times the callback `() => setInitialLoading(false)` runs in
a sequence of events. -/
def readyFirings (h : Host) : AppState → List Event → Nat
  | _, [] => 0
  | s, e :: rest =>
    (match e with
      | .readyTimer => if 0 < s.pendingReady then 1 else 0
      | _ => 0) + readyFirings h (step h s e) rest

/-- The guards `activeTab === id` of the four panels, in source order. -/
def panelGuards (s : AppState) : List Bool :=
  tabIds.map fun id => s.activeTab == id

/-- A state in which the results of the scenario of the specification are on
screen. -/
def smartMugShown : AppState :=
  { initialState with initialLoading := false, loadingProgress := 100,
                      intervalActive := false, probePending := false,
                      backendStatus := "connected", showResults := true,
                      result := smartMugResult }

/-- The invariant of the startup sequence: the progress is a multiple of 10
up to 100; while the interval is set no ready timer is scheduled and the
loading screen is up; once it is cleared the progress is 100 and the ready
timer is scheduled exactly while the loading screen is up. -/
def StartupInv (s : AppState) : Prop :=
  s.loadingProgress ≤ 100 ∧ s.loadingProgress % 10 = 0 ∧
  (s.intervalActive = true → s.pendingReady = 0 ∧ s.initialLoading = true) ∧
  (s.intervalActive = false → s.loadingProgress = 100 ∧ s.pendingReady ≤ 1 ∧
    (s.pendingReady = 1 ↔ s.initialLoading = true))

/-- The number of ready callbacks still to come: one while the interval is
set, and one for each scheduled ready timer. -/
def readyBudget (s : AppState) : Nat :=
  (if s.intervalActive then 1 else 0) + s.pendingReady

/-- A similar-product record with every field of the data model populated:
`name` and `category` strings, `price` a number, `similarity` a number between
0 and 1, `shared_features` an array of strings and
`marketing_performance.average_score` a number. -/
def PopulatedProduct (p : JSVal) : Prop :=
  isStr (p.prop "name") = true ∧ isStr (p.prop "category") = true ∧
  isNum (p.prop "price") = true ∧
  (∃ q : ℚ, p.prop "similarity" = .num (.fin q) ∧ 0 ≤ q ∧ q ≤ 1) ∧
  isStrArr (p.prop "shared_features") = true ∧
  isNum ((p.prop "marketing_performance").prop "average_score") = true

/-- No field of a view model is truthy: every one is absent or falsy. -/
def NormalizedResult.NoneTruthy (n : NormalizedResult) : Prop :=
  n.targetTones.truthy = false ∧ n.keyValuePropositions.truthy = false ∧
  n.coreMessage.truthy = false ∧ n.successMetrics.truthy = false ∧
  n.similarProducts.truthy = false ∧ n.platformContent.truthy = false ∧
  n.predictedEngagement.truthy = false ∧ n.confidenceLevel.truthy = false ∧
  n.keySuccessFactors.truthy = false ∧ n.performanceTracking.truthy = false ∧
  n.optimizationTips.truthy = false

/-! ## The request body, edits and orderly sessions -/

/-- The lower-case hexadecimal digit of a number below 16. -/
def hexDigit (n : Nat) : Char :=
  if n < 10 then Char.ofNat (48 + n) else Char.ofNat (87 + n)

/-- The characters `QuoteJSONString` writes for one character: the two-letter
escapes of the double quote, the backslash, backspace, tab, line feed, form
feed and carriage return, `\u00` and two hexadecimal digits for any other
control character, and the character itself otherwise. -/
def quoteChar (c : Char) : List Char :=
  if c.toNat = 34 then [Char.ofNat 92, Char.ofNat 34]
  else if c.toNat = 92 then [Char.ofNat 92, Char.ofNat 92]
  else if c.toNat = 8 then [Char.ofNat 92, 'b']
  else if c.toNat = 9 then [Char.ofNat 92, 't']
  else if c.toNat = 10 then [Char.ofNat 92, 'n']
  else if c.toNat = 12 then [Char.ofNat 92, 'f']
  else if c.toNat = 13 then [Char.ofNat 92, 'r']
  else if c.toNat < 32 then
    [Char.ofNat 92, 'u', '0', '0', hexDigit (c.toNat / 16), hexDigit (c.toNat % 16)]
  else [c]

/-- The call `JSON.stringify(s)` on a string. -/
def jsonQuote (s : String) : String :=
  String.mk (Char.ofNat 34 :: (s.toList.flatMap quoteChar ++ [Char.ofNat 34]))

/-- The call `JSON.stringify(formData)`: the properties in order, each as its
quoted name, a colon and its quoted value, separated by commas, in braces. -/
def jsonStringify (fd : FormData) : String :=
  "\x7b" ++ ",".intercalate (fd.map fun kv => jsonQuote kv.1 ++ ":" ++ jsonQuote kv.2) ++ "\x7d"

/-- The `body` of the request `handleSubmit` sends when the button is clicked
in state `s`. -/
def requestBody (s : AppState) : String :=
  jsonStringify s.formData

/-- The state after a sequence of change events, each given by the name and
the value of its target. -/
def applyEdits (edits : List (String × String)) (s : AppState) : AppState :=
  edits.foldl (fun t e => handleChange e.1 e.2 t) s

/-- The value most recently entered for field `k` in a sequence of edits, or
`initial` when the field was never edited. -/
def latest (k : String) (edits : List (String × String)) (initial : String) : String :=
  edits.foldl (fun acc e => if e.1 = k then e.2 else acc) initial

/-- The number of times the request of `checkBackendConnection` settles in a
sequence of events. -/
def probeSettlements (h : Host) : AppState → List Event → Nat
  | _, [] => 0
  | s, e :: rest =>
    (match e with
      | .probeSettles _ => if s.probePending then 1 else 0
      | _ => 0) + probeSettlements h (step h s e) rest

/-- A session in which no success response has the body `null` and the
submit button is never clicked while a show-results timer is pending. -/
def Orderly (h : Host) : AppState → List Event → Prop
  | _, [] => True
  | s, e :: rest =>
    (match e with
      | .submitClick => s.pendingShow = 0
      | .submitSettles o => submitTry h o ≠ .ok .null
      | _ => True) ∧ Orderly h (step h s e) rest

/-- The invariant of orderly sessions: at most one request is in flight, and
one is exactly while `loading` is true; no result is on screen and no show
timer is pending while `loading` is true; at most one show timer is pending,
and none while the results are on screen; and `result` is not null while the
results are on screen or a show timer is pending. -/
def ShowInv (s : AppState) : Prop :=
  (s.inFlight = if s.loading then 1 else 0) ∧
  (s.loading = true → s.showResults = false ∧ s.pendingShow = 0) ∧
  s.pendingShow ≤ 1 ∧
  (s.showResults = true → s.pendingShow = 0) ∧
  (s.showResults = true ∨ 0 < s.pendingShow → s.result ≠ .null)

/-- The state when the startup sequence is over: eleven ticks have run and the
ready timer has fired. -/
def readyState : AppState :=
  { initialState with loadingProgress := 100, intervalActive := false,
                      initialLoading := false }

/-- The events of the scenario up to the submit click: the probe returns 200
and the three required fields are filled. -/
def fillAndSubmit : List Event :=
  [.probeSettles (.response 200), .change "name" "Smart Mug", .change "category" "Kitchen",
    .change "description" "Keeps drinks hot", .submitClick]

/-- A site `supplied || fallback` of the view: the value is the supplied one
when that is truthy and the fallback otherwise. -/
def FallbackSite (supplied value fallback : JSVal) : Prop :=
  (supplied.truthy = true → value = supplied) ∧ (supplied.truthy = false → value = fallback)

/-- A state in which a submission has failed with a transport error. -/
def failedState : AppState :=
  handleSubmit sampleHost (.rejected "Failed to fetch")
    { readyState with backendStatus := "connected", probePending := false,
                      formData := [("name", "Smart Mug"), ("category", "Kitchen"),
                        ("description", "Keeps drinks hot"), ("price", ""),
                        ("target_audience", "")] }

/-- The state of the scenario before the submit click: the startup sequence
is over, the probe has returned 200 and the three required fields are
filled. -/
def filledState : AppState :=
  run sampleHost readyState
    [.probeSettles (.response 200), .change "name" "Smart Mug", .change "category" "Kitchen",
      .change "description" "Keeps drinks hot"]

/-- The terminal state "succeeded" of a submission that settled as `o`: the
response had a success status, `result` holds its parsed body and `error` is
empty. -/
def Succeeded (o : FetchOutcome) (s : AppState) : Prop :=
  ∃ status data, o = .response status (.ok data) ∧ responseOk status = true ∧
    s.result = data ∧ s.error = ""

/-- The terminal state "failed": `error` holds a message and `result` is
`null`. -/
def Failed (s : AppState) : Prop :=
  s.error ≠ "" ∧ s.result = .null

/-! ## Theorems -/

/-! ### Submit eligibility -/

theorem field_truthy_iff (fd : FormData) (k : String) :
    (fd.field k).truthy = true ↔ ∃ v, fd.lookup k = some v ∧ v ≠ "" := by
  unfold FormData.field
  cases hk : fd.lookup k with
  | none => simp [JSVal.truthy]
  | some v => simp [JSVal.truthy]

/-- C1: the submit button is enabled exactly when `name`, `category` and
`description` are non-empty strings, `backendStatus` is `'connected'` and
`loading` is false; so it is disabled, whatever the draft, when
`backendStatus` is `'checking'`, `'error'` or `'disconnected'`. -/
theorem submit_enabled_iff (s : AppState) :
    (submitDisabled s = false ↔
      ((∃ v, s.formData.lookup "name" = some v ∧ v ≠ "") ∧
        (∃ v, s.formData.lookup "category" = some v ∧ v ≠ "") ∧
        (∃ v, s.formData.lookup "description" = some v ∧ v ≠ "") ∧
        s.backendStatus = "connected" ∧ s.loading = false)) ∧
    (s.backendStatus = "checking" ∨ s.backendStatus = "error" ∨
      s.backendStatus = "disconnected" → submitDisabled s = true) := by
  have key : submitDisabled s = false ↔
      ((∃ v, s.formData.lookup "name" = some v ∧ v ≠ "") ∧
        (∃ v, s.formData.lookup "category" = some v ∧ v ≠ "") ∧
        (∃ v, s.formData.lookup "description" = some v ∧ v ≠ "") ∧
        s.backendStatus = "connected" ∧ s.loading = false) := by
    rw [← field_truthy_iff, ← field_truthy_iff, ← field_truthy_iff]
    unfold submitDisabled
    simp only [Bool.or_eq_false_iff, Bool.not_eq_false', bne_eq_false_iff_eq]
    tauto
  refine ⟨key, ?_⟩
  intro hst
  cases hd : submitDisabled s with
  | true => rfl
  | false =>
    have hc := (key.mp hd).2.2.2.1
    rw [hc] at hst
    revert hst
    decide

/-- C1, at the draft of the specification with the service connected, and at
the same draft with the probe failed. -/
theorem submit_enabled_iff_witness :
    submitDisabled { initialState with
      backendStatus := "connected",
      formData := [("name", "Smart Mug"), ("category", "Kitchen"),
        ("description", "Keeps drinks hot"), ("price", ""), ("target_audience", "")] } = false ∧
    submitDisabled { initialState with
      backendStatus := "disconnected",
      formData := [("name", "Smart Mug"), ("category", "Kitchen"),
        ("description", "Keeps drinks hot"), ("price", ""), ("target_audience", "")] } = true :=
  ⟨(submit_enabled_iff _).1.mpr (by decide), (submit_enabled_iff _).2 (by decide)⟩

/-! ### Submission -/

/-- C2: whatever the outcome of the request, `loading` is true from the start
of `handleSubmit`, at every `await` it suspends at (there is at least one),
and false once the call has settled. -/
theorem handleSubmit_loading (h : Host) (o : FetchOutcome) (s : AppState) :
    (submitBegin s).loading = true ∧
    (handleSubmitTrace h o s).dropLast ≠ [] ∧
    (∀ t ∈ (handleSubmitTrace h o s).dropLast, t.loading = true) ∧
    (handleSubmitTrace h o s).getLast? = some (handleSubmit h o s) ∧
    (handleSubmit h o s).loading = false := by
  have hdrop : (handleSubmitTrace h o s).dropLast =
      List.replicate (awaitCount o) (submitBegin s) := by
    unfold handleSubmitTrace
    exact List.dropLast_concat
  refine ⟨rfl, ?_, ?_, ?_, ?_⟩
  · rw [hdrop]
    cases o <;> simp [awaitCount, List.replicate]
  · intro t ht
    rw [hdrop] at ht
    rw [List.eq_of_mem_replicate ht]
    rfl
  · unfold handleSubmitTrace
    simp
  · unfold handleSubmit submitSettle
    rfl

/-- C2, at a rejected fetch and at a 500 response whose body does not parse. -/
theorem handleSubmit_loading_witness :
    (handleSubmit sampleHost (.rejected "Failed to fetch") initialState).loading = false ∧
    (handleSubmit sampleHost (.response 500 (.error "Unexpected token")) initialState).loading =
      false :=
  ⟨(handleSubmit_loading sampleHost (.rejected "Failed to fetch") initialState).2.2.2.2,
    (handleSubmit_loading sampleHost (.response 500 (.error "Unexpected token"))
      initialState).2.2.2.2⟩

/-- Every submission ends either with the parsed body in `result`, `error`
empty and one more show-results timer, or with `result` null, the message of
the thrown error in `error` and no new timer. -/
theorem handleSubmit_cases (h : Host) (o : FetchOutcome) (s : AppState) :
    (∃ data, submitTry h o = .ok data ∧ (handleSubmit h o s).result = data ∧
      (handleSubmit h o s).error = "" ∧
      (handleSubmit h o s).pendingShow = s.pendingShow + 1) ∨
    (∃ message, submitTry h o = .error message ∧ (handleSubmit h o s).result = .null ∧
      (handleSubmit h o s).error = message ∧
      (handleSubmit h o s).pendingShow = s.pendingShow) := by
  unfold handleSubmit submitSettle
  cases hr : submitTry h o with
  | ok data => exact Or.inl ⟨data, rfl, rfl, rfl, rfl⟩
  | error message => exact Or.inr ⟨message, rfl, rfl, rfl, rfl⟩

/-- A response with a non-success status never reaches `setResult`: the `try`
block throws. -/
theorem submitTry_error_of_not_ok (h : Host) (status : Nat) (body : Except String JSVal)
    (hstatus : responseOk status = false) :
    ∃ message, submitTry h (.response status body) = .error message := by
  simp only [submitTry, hstatus]
  cases body with
  | error m => exact ⟨m, rfl⟩
  | ok errorData =>
    cases hg : getProp h errorData "detail" with
    | error m => exact ⟨m, by simp [hg]⟩
    | ok detail =>
      cases hn : newErrorMessage h (jsOr detail (.str (httpErrorMessage status))) with
      | error m => exact ⟨m, by simp [hg, hn]⟩
      | ok m => exact ⟨m, by simp [hg, hn]⟩

/-- The `try` block reaches `setResult` exactly on a response with a success
status whose body parses. -/
theorem submitTry_ok_iff (h : Host) (o : FetchOutcome) (data : JSVal) :
    submitTry h o = .ok data ↔
      ∃ status, o = .response status (.ok data) ∧ responseOk status = true := by
  constructor
  · intro hd
    cases o with
    | rejected m => simp [submitTry] at hd
    | response status body =>
      by_cases hok : responseOk status = true
      · simp only [submitTry, hok, if_true] at hd
        exact ⟨status, by rw [hd], hok⟩
      · obtain ⟨m, hm⟩ := submitTry_error_of_not_ok h status body (by simpa using hok)
        rw [hm] at hd
        cases hd
  · rintro ⟨status, rfl, hok⟩
    simp [submitTry, hok]

/-- Apart from a thrown error whose message is empty, every submission ends
in exactly one terminal state: succeeded when the `try` block completes,
failed when it throws. -/
theorem handleSubmit_terminal (h : Host) (o : FetchOutcome) (s : AppState) :
    (∀ data, submitTry h o = .ok data →
      Succeeded o (handleSubmit h o s) ∧ ¬ Failed (handleSubmit h o s)) ∧
    (∀ message, submitTry h o = .error message → message ≠ "" →
      Failed (handleSubmit h o s) ∧ ¬ Succeeded o (handleSubmit h o s)) := by
  constructor
  · intro data hd
    obtain ⟨status, ho, hok⟩ := (submitTry_ok_iff h o data).mp hd
    have hres : (handleSubmit h o s).result = data ∧ (handleSubmit h o s).error = "" := by
      simp [handleSubmit, submitSettle, hd, submitBegin]
    exact ⟨⟨status, data, ho, hok, hres.1, hres.2⟩, fun hf => hf.1 hres.2⟩
  · intro message hm hne
    have hres : (handleSubmit h o s).result = .null ∧ (handleSubmit h o s).error = message := by
      simp [handleSubmit, submitSettle, hm, submitBegin]
    refine ⟨⟨by rw [hres.2]; exact hne, hres.1⟩, ?_⟩
    rintro ⟨status, data, -, -, -, herr⟩
    rw [hres.2] at herr
    exact hne herr

/-- C3, at the response 422 with body `{"detail": []}`: the call ends with
`error` empty and `result` null, which is neither the succeeded nor the failed
terminal state. -/
theorem handleSubmit_empty_list_detail (h : Host) (s : AppState) :
    (handleSubmit h (.response 422 (.ok (.obj [("detail", .arr [])]))) s).error = "" ∧
    (handleSubmit h (.response 422 (.ok (.obj [("detail", .arr [])]))) s).result = .null ∧
    (handleSubmit h (.response 422 (.ok (.obj [("detail", .arr [])]))) s).loading = false ∧
    ¬ Succeeded (.response 422 (.ok (.obj [("detail", .arr [])])))
      (handleSubmit h (.response 422 (.ok (.obj [("detail", .arr [])]))) s) ∧
    ¬ Failed (handleSubmit h (.response 422 (.ok (.obj [("detail", .arr [])]))) s) := by
  refine ⟨rfl, rfl, rfl, ?_, ?_⟩
  · rintro ⟨status, data, ho, hok, -, -⟩
    injection ho with h1 h2
    subst h1
    revert hok
    decide
  · rintro ⟨he, -⟩
    exact he rfl

/-- C4, as stated, fails at the response 422 with body `{"detail": ""}`: the
body has the detail field `""`, and the surfaced error is the generic message,
not the detail. -/
theorem empty_detail_not_surfaced :
    responseOk 422 = false ∧
    lookupKey "detail" [("detail", JSVal.str "")] = some (.str "") ∧
    (handleSubmit sampleHost (.response 422 (.ok (.obj [("detail", .str "")])))
      initialState).error = "HTTP error! status: 422" ∧
    (handleSubmit sampleHost (.response 422 (.ok (.obj [("detail", .str "")])))
      initialState).error ≠ "" := by
  refine ⟨by decide, rfl, rfl, by decide⟩

/-- C4, amended: for a response with a non-success status whose body parses
as a JSON object, the surfaced error is the detail when the detail is a
non-empty string, and is `HTTP error! status: ` followed by the status when
the body has no detail field or its detail is the empty string; in every case
`result` is null and `loading` is false. -/
theorem handleSubmit_http_error (h : Host) (status : Nat) (kvs : List (String × JSVal))
    (s : AppState) (hstatus : responseOk status = false) :
    (∀ d, lookupKey "detail" kvs = some (.str d) → d ≠ "" →
      (handleSubmit h (.response status (.ok (.obj kvs))) s).error = d) ∧
    (lookupKey "detail" kvs = none ∨ lookupKey "detail" kvs = some (.str "") →
      (handleSubmit h (.response status (.ok (.obj kvs))) s).error =
        "HTTP error! status: " ++ toString status) ∧
    (handleSubmit h (.response status (.ok (.obj kvs))) s).result = .null ∧
    (handleSubmit h (.response status (.ok (.obj kvs))) s).loading = false := by
  refine ⟨?_, ?_, ?_, ?_⟩
  · intro d hd hne
    simp [handleSubmit, submitSettle, submitTry, hstatus, getProp, JSVal.prop, hd, jsOr,
      JSVal.truthy, hne, newErrorMessage, toStr]
  · rintro (hd | hd) <;>
      simp [handleSubmit, submitSettle, submitTry, hstatus, getProp, JSVal.prop, hd, jsOr,
        JSVal.truthy, newErrorMessage, toStr, httpErrorMessage]
  · rcases handleSubmit_cases h (.response status (.ok (.obj kvs))) s with
      ⟨data, hd, -⟩ | ⟨message, -, hr, -⟩
    · obtain ⟨m, hm⟩ := submitTry_error_of_not_ok h status (.ok (.obj kvs)) hstatus
      rw [hm] at hd
      cases hd
    · exact hr
  · rfl

/-- C4, amended, at the response 422 with body
`{"detail": "description too short"}`. -/
theorem handleSubmit_http_error_witness :
    responseOk 422 = false ∧
    (handleSubmit sampleHost
      (.response 422 (.ok (.obj [("detail", .str "description too short")])))
      initialState).error = "description too short" :=
  ⟨by decide,
    (handleSubmit_http_error sampleHost 422 [("detail", .str "description too short")]
      initialState (by decide)).1 "description too short" rfl (by decide)⟩

/-! ### The active tab across submissions -/

/-- C10, as stated, fails: after a first result is shown, the Insights tab is
selected, New Analysis is clicked and a second result is accepted, `activeTab`
is still `'insights'`. -/
theorem activeTab_not_reset :
    (handleSubmit sampleHost (.response 200 (.ok (.obj [])))
      (newAnalysis (selectTab "insights" (showTimerFires
        (handleSubmit sampleHost (.response 200 (.ok (.obj [])))
          { initialState with initialLoading := false,
                              backendStatus := "connected" }))))).activeTab = "insights" ∧
    submitTry sampleHost (.response 200 (.ok (.obj []))) = .ok (.obj []) ∧
    "insights" ≠ "overview" := by
  refine ⟨rfl, rfl, by decide⟩

/-- C10, amended: `handleSubmit` leaves `activeTab` as it was, on the success
branch as on every other, and so does New Analysis; after a result is accepted
`activeTab` is `'overview'` exactly when it was `'overview'` before the
submission. -/
theorem handleSubmit_activeTab (h : Host) (o : FetchOutcome) (s : AppState) :
    (handleSubmit h o s).activeTab = s.activeTab ∧
    (newAnalysis s).activeTab = s.activeTab ∧
    ((handleSubmit h o s).activeTab = "overview" ↔ s.activeTab = "overview") := by
  have key : (handleSubmit h o s).activeTab = s.activeTab := by
    unfold handleSubmit submitSettle
    cases submitTry h o <;> rfl
  exact ⟨key, rfl, by rw [key]⟩

/-! ### Fallback expressions -/

theorem nullish_of_truthy {v : JSVal} (hv : v.truthy = true) : v.nullish = false := by
  cases v <;> simp_all [JSVal.truthy, JSVal.nullish]

theorem jsOr_truthy (a : JSVal) {b : JSVal} (hb : b.truthy = true) :
    (jsOr a b).truthy = true := by
  unfold jsOr
  split
  · assumption
  · exact hb

theorem jsOr_eq_left {a : JSVal} (b : JSVal) (ha : a.truthy = true) : jsOr a b = a := by
  simp [jsOr, ha]

theorem normalize_allTruthy (result : JSVal) : (normalize result).AllTruthy :=
  ⟨jsOr_truthy _ rfl, jsOr_truthy _ rfl, jsOr_truthy _ (by decide), jsOr_truthy _ rfl,
    jsOr_truthy _ rfl, jsOr_truthy _ rfl, jsOr_truthy _ (by decide),
    jsOr_truthy _ (by decide), jsOr_truthy _ rfl, jsOr_truthy _ rfl, jsOr_truthy _ rfl⟩

/-- C5: for every raw result (the empty object, `null` and every value with
any subset of the fields absent among them), each of the eleven fallback
expressions of the view has a value: none is `undefined` or `null`. -/
theorem normalize_populated (result : JSVal) :
    (normalize result).Populated ∧ (normalize .null).Populated ∧
      (normalize (.obj [])).Populated := by
  have key : ∀ r, (normalize r).Populated := by
    intro r
    obtain ⟨h1, h2, h3, h4, h5, h6, h7, h8, h9, h10, h11⟩ := normalize_allTruthy r
    exact ⟨nullish_of_truthy h1, nullish_of_truthy h2, nullish_of_truthy h3,
      nullish_of_truthy h4, nullish_of_truthy h5, nullish_of_truthy h6,
      nullish_of_truthy h7, nullish_of_truthy h8, nullish_of_truthy h9,
      nullish_of_truthy h10, nullish_of_truthy h11⟩
  exact ⟨key _, key _, key _⟩

/-- C7, as stated, fails at a result with every field present and a predicted
engagement of 0: the view model holds `'8.2'`, not the supplied 0, so the view
model differs from the supplied values. -/
theorem normalize_replaces_zero_engagement :
    (supplied (completeResult (.num (.fin 0)))).Populated ∧
    (supplied (completeResult (.num (.fin 0)))).predictedEngagement = .num (.fin 0) ∧
    (normalize (completeResult (.num (.fin 0)))).predictedEngagement = .str "8.2" ∧
    normalize (completeResult (.num (.fin 0))) ≠ supplied (completeResult (.num (.fin 0))) := by
  refine ⟨?_, rfl, rfl, ?_⟩
  · refine ⟨rfl, rfl, rfl, rfl, rfl, rfl, rfl, rfl, rfl, rfl, rfl⟩
  · intro hEq
    have h2 := congrArg NormalizedResult.predictedEngagement hEq
    have h3 : (JSVal.str "8.2") = .num (.fin 0) := h2
    cases h3

/-- C7, amended: normalising the result of normalisation returns it unchanged,
for every raw result; and when every field the view reads is present and
truthy, the view model equals the supplied values. -/
theorem normalize_idempotent (result : JSVal) :
    normalize (normalize result).toRaw = normalize result ∧
    ((supplied result).AllTruthy → normalize result = supplied result) := by
  constructor
  · obtain ⟨h1, h2, h3, h4, h5, h6, h7, h8, h9, h10, h11⟩ := normalize_allTruthy result
    have e1 := jsOr_eq_left defaultTargetTones h1
    have e2 := jsOr_eq_left defaultKeyValuePropositions h2
    have e3 := jsOr_eq_left defaultCoreMessage h3
    have e4 := jsOr_eq_left defaultSuccessMetrics h4
    have e5 := jsOr_eq_left defaultSimilarProducts h5
    have e6 := jsOr_eq_left defaultPlatformContent h6
    have e7 := jsOr_eq_left defaultPredictedEngagement h7
    have e8 := jsOr_eq_left defaultConfidenceLevel h8
    have e9 := jsOr_eq_left defaultKeySuccessFactors h9
    have e10 := jsOr_eq_left defaultPerformanceTracking h10
    have e11 := jsOr_eq_left defaultOptimizationTips h11
    generalize normalize result = n at *
    cases n
    simp only [normalize, NormalizedResult.toRaw, targetTones, keyValuePropositions,
      coreMessage, successMetrics, similarProducts, platformContent, predictedEngagement,
      confidenceLevel, keySuccessFactors, performanceTracking, optimizationTips, read2,
      optProp, JSVal.nullish, JSVal.prop, lookupKey] at *
    simp [lookupKey, e1, e2, e3, e4, e5, e6, e7, e8, e9, e10, e11]
  · rintro ⟨h1, h2, h3, h4, h5, h6, h7, h8, h9, h10, h11⟩
    simp only [supplied] at h1 h2 h3 h4 h5 h6 h7 h8 h9 h10 h11
    simp only [normalize, supplied, targetTones, keyValuePropositions,
      coreMessage, successMetrics, similarProducts, platformContent, predictedEngagement,
      confidenceLevel, keySuccessFactors, performanceTracking, optimizationTips,
      jsOr_eq_left _ h1, jsOr_eq_left _ h2, jsOr_eq_left _ h3, jsOr_eq_left _ h4,
      jsOr_eq_left _ h5, jsOr_eq_left _ h6, jsOr_eq_left _ h7, jsOr_eq_left _ h8,
      jsOr_eq_left _ h9, jsOr_eq_left _ h10, jsOr_eq_left _ h11]

/-- C7, amended, at a result with every field present and truthy. -/
theorem normalize_idempotent_witness :
    (supplied (completeResult (hundredths 790))).AllTruthy ∧
    normalize (completeResult (hundredths 790)) = supplied (completeResult (hundredths 790)) :=
  have hAll : (supplied (completeResult (hundredths 790))).AllTruthy :=
    ⟨rfl, rfl, by decide, rfl, rfl, rfl,
      by show (hundredths 790).truthy = true
         simp [hundredths, JSVal.truthy, JSNum.truthy],
      by decide, rfl, rfl, rfl⟩
  ⟨hAll, (normalize_idempotent (completeResult (hundredths 790))).2 hAll⟩

/-! ### Similar products -/

theorem ofNat_truthy (n : Nat) : (JSVal.ofNat n).truthy = decide (n ≠ 0) := by
  simp [JSVal.ofNat, JSVal.truthy, JSNum.truthy]

theorem similarProductsMetric_of_read {result v : JSVal}
    (hv : optProp result "similar_products" = v) :
    similarProductsMetric result = jsOr (optProp v "length") (JSVal.ofNat 3) := by
  rw [similarProductsMetric, read2, hv]

theorem similarProductsMetric_of_arr {result : JSVal} {xs : List JSVal}
    (hxs : optProp result "similar_products" = .arr xs) :
    similarProductsMetric result =
      if xs.length = 0 then JSVal.ofNat 3 else JSVal.ofNat xs.length := by
  rw [similarProductsMetric_of_read hxs]
  by_cases hlen : xs.length = 0 <;>
    simp [optProp, JSVal.nullish, JSVal.prop, jsOr, ofNat_truthy, hlen]

/-- C8, at the payload of the scenario: with `similar_products` the empty
list, the list the similar panel maps over is the supplied empty list, not the
three defaults, and the panel renders no card, while the metric card shows 3;
with `similar_products` absent the list is the three defaults. -/
theorem similarPanel_empty_list (h : Host) :
    similarProducts smartMugResult = .arr [] ∧
    similarPanel h smartMugResult = some [] ∧
    similarProductsMetric smartMugResult = JSVal.ofNat 3 ∧
    similarProducts smartMugNoSimilar = defaultSimilarProducts ∧
    (∃ a b c, defaultSimilarProducts = .arr [a, b, c]) :=
  ⟨rfl, rfl, @similarProductsMetric_of_arr smartMugResult [] rfl, rfl, ⟨_, _, _, rfl⟩⟩

/-- C9: the Similar Products metric shows 3 when `similar_products` is absent
(`undefined`, also because the result is `null`, or `null`) or the empty list,
and the length of the supplied list when that list is not empty. -/
theorem similarProductsMetric_spec (result : JSVal) :
    (optProp result "similar_products" = .undefined ∨
      optProp result "similar_products" = .null ∨
      optProp result "similar_products" = .arr [] →
        similarProductsMetric result = JSVal.ofNat 3) ∧
    (∀ xs, optProp result "similar_products" = .arr xs → xs ≠ [] →
        similarProductsMetric result = JSVal.ofNat xs.length) := by
  constructor
  · rintro (hu | hn | he)
    · rw [similarProductsMetric_of_read hu]
      rfl
    · rw [similarProductsMetric_of_read hn]
      rfl
    · rw [similarProductsMetric_of_arr he]
      rfl
  · intro xs hxs hne
    have hlen : xs.length ≠ 0 := fun h0 => hne (List.length_eq_zero.mp h0)
    rw [similarProductsMetric_of_arr hxs, if_neg hlen]

/-- C9, at the payload of the scenario (`similar_products` the empty list),
which shows 3, and at a payload with one similar product, which shows 1. -/
theorem similarProductsMetric_spec_witness :
    similarProductsMetric smartMugResult = JSVal.ofNat 3 ∧
    similarProductsMetric (completeResult (.num (.fin 0))) = JSVal.ofNat 1 :=
  ⟨(similarProductsMetric_spec smartMugResult).1 (Or.inr (Or.inr rfl)),
    (similarProductsMetric_spec (completeResult (.num (.fin 0)))).2 _ rfl (by simp)⟩

/-! ### Panels -/

theorem mapOption_isSome {α β : Type} {f : α → Option β} {xs : List α}
    (hf : ∀ x ∈ xs, (f x).isSome = true) : (mapOption f xs).isSome = true := by
  induction xs with
  | nil => rfl
  | cons x rest ih =>
    obtain ⟨y, hy⟩ := Option.isSome_iff_exists.mp (hf x (List.mem_cons_self x rest))
    obtain ⟨ys, hys⟩ := Option.isSome_iff_exists.mp
      (ih fun z hz => hf z (List.mem_cons_of_mem x hz))
    simp [mapOption, hy, hys]

theorem absentOr_elim {p : JSVal → Bool} {v : JSVal} (hv : absentOr p v = true) :
    v.nullish = true ∨ p v = true := by
  simpa [absentOr] using hv

theorem jsOr_typed {p : JSVal → Bool} {a d : JSVal} (ha : absentOr p a = true)
    (hd : p d = true) : p (jsOr a d) = true := by
  unfold jsOr
  split
  · rename_i ht
    rcases absentOr_elim ha with hn | hp
    · rw [nullish_of_truthy ht] at hn
      cases hn
    · exact hp
  · exact hd

theorem child_of_isStr {v : JSVal} (hv : isStr v = true) : child v = some v := by
  cases v <;> simp_all [isStr, child, validChild]

theorem child_of_absentOr_isStr {v : JSVal} (hv : absentOr isStr v = true) :
    child v = some v := by
  cases v <;> simp_all [absentOr, JSVal.nullish, isStr, child, validChild]

theorem child_of_absentOr_isNum {v : JSVal} (hv : absentOr isNum v = true) :
    child v = some v := by
  cases v <;> simp_all [absentOr, JSVal.nullish, isNum, child, validChild]

theorem child_of_isStrOrNum {v : JSVal} (hv : isStrOrNum v = true) : child v = some v := by
  cases v <;> simp_all [isStrOrNum, isStr, isNum, child, validChild]

theorem mapOption_child_isSome {xs : List JSVal} (hxs : xs.all isStr = true) :
    (mapOption child xs).isSome = true := by
  apply mapOption_isSome
  intro x hx
  rw [child_of_isStr (List.all_eq_true.mp hxs x hx)]
  rfl

theorem jsMap_child_isSome {v : JSVal} (hv : isStrArr v = true) :
    (jsMap child v).isSome = true := by
  cases v <;> simp_all [isStrArr, jsMap]
  exact mapOption_child_isSome (List.all_eq_true.mpr hv)

theorem jsMap_metricLabel_isSome {v : JSVal} (hv : isStrArr v = true) :
    (jsMap metricLabel v).isSome = true := by
  cases v <;> simp_all [isStrArr, jsMap]
  apply mapOption_isSome
  intro x hx
  have hstr := hv x hx
  cases x <;> simp_all [isStr, metricLabel]

theorem sliceMap_isSome (n : Nat) {v : JSVal} (hv : isStrArr v = true) :
    (sliceMap n v).isSome = true := by
  cases v <;> simp_all [isStrArr, sliceMap]
  apply mapOption_isSome
  intro x hx
  rw [child_of_isStr (hv x (List.mem_of_mem_take hx))]
  rfl

theorem toNumber_of_absentOr_isNum (h : Host) {v : JSVal} (hv : absentOr isNum v = true) :
    ∃ n, toNumber h v = some n := by
  cases v <;> simp_all [absentOr, JSVal.nullish, isNum, toNumber]

theorem performanceScore_isSome (h : Host) {product : JSVal}
    (hprod : product.nullish = false)
    (hp : absentOr (fun mp => isObj mp && absentOr isNum (mp.prop "average_score"))
      (product.prop "marketing_performance") = true) :
    ∃ v, performanceScore h product = some v := by
  unfold performanceScore
  simp only [hprod, Bool.false_eq_true, if_false]
  rcases absentOr_elim hp with hn | hobj
  · simp [optProp, hn]
  · simp only [Bool.and_eq_true] at hobj
    obtain ⟨ho, hscore⟩ := hobj
    have hnn : (product.prop "marketing_performance").nullish = false := by
      cases hmp : product.prop "marketing_performance" <;> simp_all [isObj, JSVal.nullish]
    simp only [optProp, hnn, Bool.false_eq_true, if_false]
    cases hs : (product.prop "marketing_performance").prop "average_score" <;>
      simp_all [absentOr, JSVal.nullish, isNum]

theorem productCard_isSome (h : Host) {product : JSVal}
    (hp : wellTypedProduct product = true) : (productCard h product).isSome = true := by
  simp only [wellTypedProduct, Bool.and_eq_true] at hp
  obtain ⟨⟨⟨⟨⟨⟨ho, hname⟩, hcat⟩, hprice⟩, hsim⟩, hfeat⟩, hperf⟩ := hp
  have hnn : product.nullish = false := by
    cases product <;> simp_all [isObj, JSVal.nullish]
  obtain ⟨n, hn⟩ := toNumber_of_absentOr_isNum h hsim
  obtain ⟨score, hscore⟩ := performanceScore_isSome h hnn hperf
  by_cases hnull : (product.prop "shared_features").nullish = true
  · simp [productCard, hnn, hn, child_of_absentOr_isStr hname, child_of_absentOr_isStr hcat,
      child_of_absentOr_isNum hprice, hnull, hscore]
  · have harr : isStrArr (product.prop "shared_features") = true := by
      rcases absentOr_elim hfeat with hn' | ha
      · exact absurd hn' hnull
      · exact ha
    obtain ⟨xs, hxs⟩ := Option.isSome_iff_exists.mp (sliceMap_isSome 4 harr)
    simp [productCard, hnn, hn, child_of_absentOr_isStr hname, child_of_absentOr_isStr hcat,
      child_of_absentOr_isNum hprice, hnull, hxs, hscore]

theorem platformBlock_isSome {entry : String × JSVal}
    (hc : wellTypedContent entry.2 = true) : (platformBlock entry).isSome = true := by
  simp only [wellTypedContent, Bool.and_eq_true] at hc
  obtain ⟨⟨ho, hcap⟩, hhash⟩ := hc
  have hnn : entry.2.nullish = false := by
    cases hv : entry.2 <;> simp_all [isObj, JSVal.nullish]
  unfold platformBlock
  simp only [hnn, Bool.false_eq_true, if_false]
  by_cases hct : (entry.2.prop "caption_templates").truthy = true
  · have hcapArr : isStrArr (entry.2.prop "caption_templates") = true := by
      rcases absentOr_elim hcap with hn | ha
      · rw [nullish_of_truthy hct] at hn
        cases hn
      · exact ha
    obtain ⟨caps, hcaps⟩ := Option.isSome_iff_exists.mp (sliceMap_isSome 2 hcapArr)
    by_cases hhs : (entry.2.prop "hashtag_strategy").truthy = true
    · by_cases hprim : ((entry.2.prop "hashtag_strategy").prop "primary").nullish = true
      · simp [hct, hcaps, hhs, hprim]
      · have hprimArr : isStrArr ((entry.2.prop "hashtag_strategy").prop "primary") = true := by
          rcases absentOr_elim hhash with hn | ha
          · rw [nullish_of_truthy hhs] at hn
            cases hn
          · simp only [Bool.and_eq_true] at ha
            rcases absentOr_elim ha.2 with hn | hb
            · exact absurd hn hprim
            · exact hb
        obtain ⟨tags, htags⟩ := Option.isSome_iff_exists.mp (jsMap_child_isSome hprimArr)
        simp [hct, hcaps, hhs, hprim, htags]
    · simp [hct, hcaps, hhs]
  · simp [hct]

/-- C6, as stated, fails: each of these JSON values is accepted as the body of
a 200 response, and a panel raises an error on it: `target_tones` a string,
`similar_products` a string, a `null` element in `similar_products`, a
success metric that is a number, and an `average_score` that is a string. -/
theorem panels_raise_on_unexpected_types :
    submitTry sampleHost (.response 200 (.ok
      (.obj [("marketing_strategy", .obj [("target_tones", .str "Bold")])]))) =
      .ok (.obj [("marketing_strategy", .obj [("target_tones", .str "Bold")])]) ∧
    overviewPanel (.obj [("marketing_strategy", .obj [("target_tones", .str "Bold")])]) = none ∧
    similarPanel sampleHost (.obj [("similar_products", .str "none")]) = none ∧
    similarPanel sampleHost (.obj [("similar_products", .arr [.null])]) = none ∧
    overviewPanel
      (.obj [("marketing_strategy", .obj [("success_metrics", .arr [.num (.fin 5)])])]) = none ∧
    similarPanel sampleHost (.obj [("similar_products", .arr [
      .obj [("marketing_performance", .obj [("average_score", .str "high")])]])]) = none :=
  ⟨rfl, rfl, rfl, rfl, rfl, rfl⟩

/-- C6, amended: for every raw result in which each field the view reads is
absent or has the type the data model gives it (`null`, the empty object and
every subset of absent fields among them), each of the four panels evaluates
without raising an error. -/
theorem panels_total_of_wellTyped (h : Host) (result : JSVal) (hw : WellTyped result) :
    (overviewPanel result).isSome = true ∧ (similarPanel h result).isSome = true ∧
    (contentPanel result).isSome = true ∧ (insightsPanel result).isSome = true := by
  obtain ⟨h1, h2, h3, h4, h5, h6, h7, h8, h9, h10, h11⟩ := hw
  simp only [supplied] at h1 h2 h3 h4 h5 h6 h7 h8 h9 h10 h11
  have t1 : isStrArr (targetTones result) = true := jsOr_typed h1 rfl
  have t2 : isStrArr (keyValuePropositions result) = true := jsOr_typed h2 rfl
  have t3 : isStr (coreMessage result) = true := jsOr_typed h3 rfl
  have t4 : isStrArr (successMetrics result) = true := jsOr_typed h4 rfl
  have t5 : isProductArr (similarProducts result) = true := jsOr_typed h5 rfl
  have t6 : isContentMap (platformContent result) = true := jsOr_typed h6 rfl
  have t7 : isStrOrNum (predictedEngagement result) = true := jsOr_typed h7 rfl
  have t8 : isStr (confidenceLevel result) = true := jsOr_typed h8 rfl
  have t9 : isStrArr (keySuccessFactors result) = true := jsOr_typed h9 rfl
  have t10 : isStrArr (performanceTracking result) = true := jsOr_typed h10 rfl
  have t11 : isStrArr (optimizationTips result) = true := jsOr_typed h11 rfl
  refine ⟨?_, ?_, ?_, ?_⟩
  · obtain ⟨a, ha⟩ := Option.isSome_iff_exists.mp (jsMap_child_isSome t1)
    obtain ⟨b, hb⟩ := Option.isSome_iff_exists.mp (jsMap_child_isSome t2)
    obtain ⟨d, hd⟩ := Option.isSome_iff_exists.mp (jsMap_metricLabel_isSome t4)
    simp [overviewPanel, ha, hb, child_of_isStr t3, hd]
  · unfold similarPanel
    cases hsp : similarProducts result <;> rw [hsp] at t5 <;>
      simp only [isProductArr, Bool.false_eq_true] at t5
    exact mapOption_isSome fun x hx => productCard_isSome h (List.all_eq_true.mp t5 x hx)
  · unfold contentPanel
    cases hpc : platformContent result <;> rw [hpc] at t6 <;>
      simp only [isContentMap, Bool.false_eq_true] at t6
    exact mapOption_isSome fun kv hkv => platformBlock_isSome (List.all_eq_true.mp t6 kv hkv)
  · obtain ⟨a, ha⟩ := Option.isSome_iff_exists.mp (jsMap_child_isSome t9)
    obtain ⟨b, hb⟩ := Option.isSome_iff_exists.mp (jsMap_child_isSome t10)
    obtain ⟨d, hd⟩ := Option.isSome_iff_exists.mp (jsMap_child_isSome t11)
    simp [insightsPanel, child_of_isStrOrNum t7, child_of_isStr t8, ha, hb, hd]

/-- C6, amended, at a result with every field present, and at `null`. -/
theorem panels_total_of_wellTyped_witness :
    WellTyped (completeResult (hundredths 790)) ∧
    (overviewPanel (completeResult (hundredths 790))).isSome = true ∧
    (similarPanel sampleHost (completeResult (hundredths 790))).isSome = true ∧
    (contentPanel (completeResult (hundredths 790))).isSome = true ∧
    (insightsPanel (completeResult (hundredths 790))).isSome = true ∧
    (overviewPanel .null).isSome = true :=
  have hw : WellTyped (completeResult (hundredths 790)) :=
    ⟨rfl, rfl, rfl, rfl, rfl, rfl, rfl, rfl, rfl, rfl, rfl⟩
  have hnull : WellTyped .null := ⟨rfl, rfl, rfl, rfl, rfl, rfl, rfl, rfl, rfl, rfl, rfl⟩
  ⟨hw, (panels_total_of_wellTyped sampleHost _ hw).1,
    (panels_total_of_wellTyped sampleHost _ hw).2.1,
    (panels_total_of_wellTyped sampleHost _ hw).2.2.1,
    (panels_total_of_wellTyped sampleHost _ hw).2.2.2,
    (panels_total_of_wellTyped sampleHost .null hnull).1⟩

/-! ### Sessions -/

theorem run_nil (h : Host) (s : AppState) : run h s [] = s := rfl

theorem run_cons (h : Host) (s : AppState) (e : Event) (rest : List Event) :
    run h s (e :: rest) = run h (step h s e) rest := rfl

theorem run_append (h : Host) (s : AppState) (es fs : List Event) :
    run h s (es ++ fs) = run h (run h s es) fs := by
  simp [run, List.foldl_append]

/-- A property that holds initially and that every step keeps holds in every
reachable state. -/
theorem reachable_induction (h : Host) {P : AppState → Prop} (h0 : P initialState)
    (hstep : ∀ s e, P s → P (step h s e)) : ∀ s, Reachable h s → P s := by
  have key : ∀ events s, P s → P (run h s events) := by
    intro events
    induction events with
    | nil => intro s hs; exact hs
    | cons e rest ih => intro s hs; exact ih _ (hstep s e hs)
  rintro s ⟨events, rfl⟩
  exact key events _ h0

theorem reachable_step (h : Host) {s : AppState} (hs : Reachable h s) (e : Event) :
    Reachable h (step h s e) := by
  obtain ⟨events, rfl⟩ := hs
  exact ⟨events ++ [e], by rw [run_append]; rfl⟩

theorem submitSettle_fields (h : Host) (o : FetchOutcome) (s : AppState) :
    (submitSettle h o s).formData = s.formData ∧
    (submitSettle h o s).initialLoading = s.initialLoading ∧
    (submitSettle h o s).loadingProgress = s.loadingProgress ∧
    (submitSettle h o s).backendStatus = s.backendStatus ∧
    (submitSettle h o s).activeTab = s.activeTab ∧
    (submitSettle h o s).showResults = s.showResults ∧
    (submitSettle h o s).intervalActive = s.intervalActive ∧
    (submitSettle h o s).pendingReady = s.pendingReady ∧
    (submitSettle h o s).probePending = s.probePending ∧
    (submitSettle h o s).loading = false := by
  unfold submitSettle
  cases submitTry h o <;> simp

/-! ### Frame of the submission -/

/-- C14: `handleSubmit` leaves `formData` as it was, whatever the outcome of
the request; neither its synchronous prefix nor its continuation writes it. -/
theorem handleSubmit_formData (h : Host) (o : FetchOutcome) (s : AppState) :
    (handleSubmit h o s).formData = s.formData ∧
    (submitBegin s).formData = s.formData ∧
    (submitSettle h o s).formData = s.formData := by
  refine ⟨?_, rfl, (submitSettle_fields h o s).1⟩
  unfold handleSubmit
  rw [(submitSettle_fields h o (submitBegin s)).1]
  rfl

/-- C20, at a response 500 whose body is not JSON and at a response 500 whose
body is JSON `null`: the call fails with `result` null and `loading` false,
and the surfaced error is the message of the parse error, or of the TypeError
of reading `detail` of `null`, not `HTTP error! status: 500`. -/
theorem handleSubmit_unparsable_error_body (h : Host) (s : AppState) :
    (handleSubmit h (.response 500 (.error "Unexpected token < in JSON at position 0"))
      s).error = "Unexpected token < in JSON at position 0" ∧
    "Unexpected token < in JSON at position 0" ≠ "HTTP error! status: " ++ toString 500 ∧
    (handleSubmit h (.response 500 (.error "Unexpected token < in JSON at position 0"))
      s).result = .null ∧
    (handleSubmit h (.response 500 (.error "Unexpected token < in JSON at position 0"))
      s).loading = false ∧
    (handleSubmit h (.response 500 (.ok .null)) s).error = h.readNullishMsg true "detail" ∧
    (handleSubmit sampleHost (.response 500 (.ok .null)) s).error =
      "Cannot read properties of null (reading \x27detail\x27)" :=
  ⟨rfl, by decide, rfl, rfl, rfl, rfl⟩

/-! ### New Analysis -/

/-- C16: New Analysis sets `result` to null and `showResults` to false and
leaves the draft, the connectivity status and the loading flag as they were,
so that from the results view the form is on screen again; selecting a tab
leaves `showResults` as it was. -/
theorem newAnalysis_spec (h : Host) (s : AppState) :
    (newAnalysis s).result = .null ∧ (newAnalysis s).showResults = false ∧
    (newAnalysis s).formData = s.formData ∧
    (newAnalysis s).backendStatus = s.backendStatus ∧
    (newAnalysis s).loading = s.loading ∧
    (resultsShown s = true →
      step h s .newAnalysisClick = newAnalysis s ∧
      formShown (step h s .newAnalysisClick) = true) ∧
    (∀ id, (selectTab id s).showResults = s.showResults ∧
      (step h s (.tabClick id)).showResults = s.showResults) := by
  refine ⟨rfl, rfl, rfl, rfl, rfl, ?_, ?_⟩
  · intro hshown
    have hstep : step h s .newAnalysisClick = newAnalysis s := by
      simp [step, Event.enabled, hshown, Event.apply]
    rw [hstep]
    refine ⟨rfl, ?_⟩
    simp only [resultsShown, Bool.and_eq_true, Bool.not_eq_true'] at hshown
    simp [formShown, newAnalysis, hshown.1]
  · intro id
    refine ⟨rfl, ?_⟩
    unfold step
    split <;> rfl

/-- C16, at the state in which the results of the scenario are on screen. -/
theorem newAnalysis_spec_witness :
    resultsShown smartMugShown = true ∧
    formShown (step sampleHost smartMugShown .newAnalysisClick) = true :=
  ⟨rfl, ((newAnalysis_spec sampleHost smartMugShown).2.2.2.2.2.1 rfl).2⟩

/-! ### Health probe -/

theorem step_probe_inv (h : Host) (s : AppState) (e : Event)
    (hs : s.probePending = true → s.backendStatus = "checking") :
    (step h s e).probePending = true → (step h s e).backendStatus = "checking" := by
  unfold step
  split
  · cases e with
    | submitSettles o =>
      simpa [Event.apply, (submitSettle_fields h o s).2.2.2.1,
        (submitSettle_fields h o s).2.2.2.2.2.2.2.2.1] using hs
    | tick => simp only [Event.apply, intervalTick]; split <;> exact hs
    | showTimer => simp only [Event.apply, showTimerFires]; split <;> exact hs
    | probeSettles o => simp [Event.apply]
    | _ => exact hs
  · exact hs

/-- C12: `checkBackendConnection` sets `backendStatus` to `'connected'` on a
response with a success status, to `'error'` on a response with any other
status and to `'disconnected'` on a rejected fetch, and never to `'checking'`;
`backendStatus` starts as `'checking'` and is `'checking'` in every reachable
state in which the probe has not settled. -/
theorem checkBackendConnection_status (h : Host) :
    (∀ s status, responseOk status = true →
      (checkBackendConnection (.response status) s).backendStatus = "connected") ∧
    (∀ s status, responseOk status = false →
      (checkBackendConnection (.response status) s).backendStatus = "error") ∧
    (∀ s, (checkBackendConnection .rejected s).backendStatus = "disconnected") ∧
    (∀ s o, (checkBackendConnection o s).backendStatus ≠ "checking") ∧
    initialState.backendStatus = "checking" ∧
    (∀ s, Reachable h s → s.probePending = true → s.backendStatus = "checking") := by
  refine ⟨?_, ?_, ?_, ?_, rfl, ?_⟩
  · intro s status hok
    simp [checkBackendConnection, hok]
  · intro s status hok
    simp [checkBackendConnection, hok]
  · intro s
    rfl
  · intro s o
    cases o with
    | rejected => simp [checkBackendConnection]
    | response status =>
      cases hok : responseOk status <;> simp [checkBackendConnection, hok]
  · exact reachable_induction h (fun _ => rfl) (step_probe_inv h)

/-- C12, at the statuses 200 and 503 and at a rejected fetch. -/
theorem checkBackendConnection_status_witness :
    (checkBackendConnection (.response 200) initialState).backendStatus = "connected" ∧
    (checkBackendConnection (.response 503) initialState).backendStatus = "error" ∧
    (checkBackendConnection .rejected initialState).backendStatus = "disconnected" :=
  ⟨(checkBackendConnection_status sampleHost).1 initialState 200 (by decide),
    (checkBackendConnection_status sampleHost).2.1 initialState 503 (by decide),
    (checkBackendConnection_status sampleHost).2.2.1 initialState⟩

/-! ### Tabs -/

theorem step_activeTab (h : Host) (s : AppState) (e : Event) :
    (step h s e).activeTab = s.activeTab ∨
      ∃ id, e = .tabClick id ∧ id ∈ tabIds ∧ (step h s e).activeTab = id := by
  unfold step
  split
  · rename_i hen
    cases e with
    | submitSettles o => exact Or.inl (by simp [Event.apply, (submitSettle_fields h o s).2.2.2.2.1])
    | tick => left; simp only [Event.apply, intervalTick]; split <;> rfl
    | showTimer => left; simp only [Event.apply, showTimerFires]; split <;> rfl
    | probeSettles o =>
      left
      cases o with
      | rejected => rfl
      | response status => simp only [Event.apply, checkBackendConnection]; split <;> rfl
    | tabClick id =>
      right
      simp only [Event.enabled, Bool.and_eq_true] at hen
      exact ⟨id, rfl, List.elem_iff.mp hen.2, rfl⟩
    | _ => exact Or.inl rfl
  · exact Or.inl rfl

theorem panelGuards_count {s : AppState} (hs : s.activeTab ∈ tabIds) :
    (panelGuards s).count true = 1 := by
  simp only [tabIds, List.mem_cons, List.mem_singleton, List.not_mem_nil, or_false] at hs
  rcases hs with h1 | h1 | h1 | h1 <;> simp [panelGuards, tabIds, h1]

/-- C17: selecting tab `id` sets `activeTab` to `id` and writes nothing else;
no other event (field edit, submit click or settlement, timers, New Analysis,
probe, startup tick) changes `activeTab`; so in every reachable state
`activeTab` is one of `overview`, `similar`, `content`, `insights` and exactly
one of the four panel guards holds. -/
theorem activeTab_machine (h : Host) :
    (∀ s id, (selectTab id s).activeTab = id ∧
      (selectTab id s).formData = s.formData ∧ (selectTab id s).loading = s.loading ∧
      (selectTab id s).initialLoading = s.initialLoading ∧
      (selectTab id s).loadingProgress = s.loadingProgress ∧
      (selectTab id s).result = s.result ∧ (selectTab id s).error = s.error ∧
      (selectTab id s).backendStatus = s.backendStatus ∧
      (selectTab id s).showResults = s.showResults ∧
      (selectTab id s).pendingShow = s.pendingShow ∧
      (selectTab id s).intervalActive = s.intervalActive ∧
      (selectTab id s).pendingReady = s.pendingReady ∧
      (selectTab id s).probePending = s.probePending ∧
      (selectTab id s).inFlight = s.inFlight) ∧
    (∀ s e, (∀ id, e ≠ .tabClick id) → (step h s e).activeTab = s.activeTab) ∧
    (∀ s, Reachable h s → s.activeTab ∈ tabIds) ∧
    (∀ s, Reachable h s → (panelGuards s).count true = 1) := by
  have hreach : ∀ s, Reachable h s → s.activeTab ∈ tabIds := by
    refine @reachable_induction h (fun s => s.activeTab ∈ tabIds) ?_ ?_
    · decide
    · intro s e hs
      rcases step_activeTab h s e with heq | ⟨id, -, hid, heq⟩
      · rw [heq]; exact hs
      · rw [heq]; exact hid
  refine ⟨fun s id => ⟨rfl, rfl, rfl, rfl, rfl, rfl, rfl, rfl, rfl, rfl, rfl, rfl, rfl, rfl⟩,
    ?_, hreach, fun s hs => panelGuards_count (hreach s hs)⟩
  intro s e hne
  rcases step_activeTab h s e with heq | ⟨id, he, -, -⟩
  · exact heq
  · exact absurd he (hne id)

/-- C17, at the results of the scenario: a click on the Insights tab, then a
New Analysis click, keep `activeTab` among the four ids. -/
theorem activeTab_machine_witness :
    (step sampleHost (step sampleHost smartMugShown (.tabClick "insights"))
      .newAnalysisClick).activeTab = "insights" ∧
    (step sampleHost (step sampleHost smartMugShown (.tabClick "insights"))
      .newAnalysisClick).activeTab =
      (step sampleHost smartMugShown (.tabClick "insights")).activeTab :=
  ⟨rfl, (activeTab_machine sampleHost).2.1 _ .newAnalysisClick (fun id hid => by cases hid)⟩

/-! ### Startup sequence -/

/-- Every step is an interval callback that runs, a ready callback that runs,
or leaves the four startup fields as they were. -/
theorem step_startup_cases (h : Host) (s : AppState) (e : Event) :
    (e = .tick ∧ s.intervalActive = true ∧ step h s e = intervalTick s) ∨
    (e = .readyTimer ∧ 0 < s.pendingReady ∧ step h s e = readyTimerFires s) ∨
    ((step h s e).loadingProgress = s.loadingProgress ∧
      (step h s e).intervalActive = s.intervalActive ∧
      (step h s e).pendingReady = s.pendingReady ∧
      (step h s e).initialLoading = s.initialLoading ∧
      (e = .tick → s.intervalActive = false) ∧ (e = .readyTimer → s.pendingReady = 0)) := by
  unfold step
  split
  · rename_i hen
    cases e with
    | tick => exact Or.inl ⟨rfl, hen, rfl⟩
    | readyTimer => exact Or.inr (Or.inl ⟨rfl, by simpa [Event.enabled] using hen, rfl⟩)
    | submitSettles o =>
      refine Or.inr (Or.inr ⟨?_, ?_, ?_, ?_, ?_, ?_⟩)
      · simp [Event.apply, (submitSettle_fields h o s).2.2.1]
      · simp [Event.apply, (submitSettle_fields h o s).2.2.2.2.2.2.1]
      · simp [Event.apply, (submitSettle_fields h o s).2.2.2.2.2.2.2.1]
      · simp [Event.apply, (submitSettle_fields h o s).2.1]
      · intro he; cases he
      · intro he; cases he
    | showTimer =>
      refine Or.inr (Or.inr ⟨?_, ?_, ?_, ?_, ?_, ?_⟩)
      · simp only [Event.apply, showTimerFires]; split <;> rfl
      · simp only [Event.apply, showTimerFires]; split <;> rfl
      · simp only [Event.apply, showTimerFires]; split <;> rfl
      · simp only [Event.apply, showTimerFires]; split <;> rfl
      · intro he; cases he
      · intro he; cases he
    | probeSettles o =>
      have hc : (checkBackendConnection o s).loadingProgress = s.loadingProgress ∧
          (checkBackendConnection o s).intervalActive = s.intervalActive ∧
          (checkBackendConnection o s).pendingReady = s.pendingReady ∧
          (checkBackendConnection o s).initialLoading = s.initialLoading := by
        cases o with
        | rejected => exact ⟨rfl, rfl, rfl, rfl⟩
        | response status =>
          simp only [checkBackendConnection]
          split <;> exact ⟨rfl, rfl, rfl, rfl⟩
      refine Or.inr (Or.inr ⟨hc.1, hc.2.1, hc.2.2.1, hc.2.2.2, ?_, ?_⟩)
      · intro he; cases he
      · intro he; cases he
    | change name value =>
      refine Or.inr (Or.inr ⟨rfl, rfl, rfl, rfl, ?_, ?_⟩) <;> (intro he; cases he)
    | submitClick =>
      refine Or.inr (Or.inr ⟨rfl, rfl, rfl, rfl, ?_, ?_⟩) <;> (intro he; cases he)
    | newAnalysisClick =>
      refine Or.inr (Or.inr ⟨rfl, rfl, rfl, rfl, ?_, ?_⟩) <;> (intro he; cases he)
    | tabClick id =>
      refine Or.inr (Or.inr ⟨rfl, rfl, rfl, rfl, ?_, ?_⟩) <;> (intro he; cases he)
  · rename_i hen
    refine Or.inr (Or.inr ⟨rfl, rfl, rfl, rfl, ?_, ?_⟩)
    · rintro rfl
      simpa [Event.enabled] using hen
    · rintro rfl
      simpa [Event.enabled] using hen

theorem startupInv_initial : StartupInv initialState := by
  refine ⟨by decide, by decide, ?_, ?_⟩
  · intro _
    exact ⟨rfl, rfl⟩
  · intro hf
    cases hf

theorem startupInv_step (h : Host) (s : AppState) (e : Event) (hs : StartupInv s) :
    StartupInv (step h s e) := by
  obtain ⟨h1, h2, h3, h4⟩ := hs
  rcases step_startup_cases h s e with ⟨-, hact, heq⟩ | ⟨-, hpos, heq⟩ | ⟨e1, e2, e3, e4, -, -⟩
  · obtain ⟨hp, hi⟩ := h3 hact
    rw [heq]
    unfold intervalTick
    split
    · refine ⟨?_, ?_, ?_, ?_⟩
      · exact Nat.le_refl 100
      · show 100 % 10 = 0
        decide
      · intro hf
        cases hf
      · intro _
        refine ⟨rfl, ?_, ?_⟩
        · show s.pendingReady + 1 ≤ 1
          omega
        · show s.pendingReady + 1 = 1 ↔ s.initialLoading = true
          constructor
          · intro _
            exact hi
          · intro _
            omega
    · rename_i hlt
      refine ⟨?_, ?_, ?_, ?_⟩
      · show s.loadingProgress + 10 ≤ 100
        omega
      · show (s.loadingProgress + 10) % 10 = 0
        omega
      · intro _
        exact ⟨hp, hi⟩
      · intro hf
        have hf' : s.intervalActive = false := hf
        rw [hact] at hf'
        cases hf'
  · have hact : s.intervalActive = false := by
      cases hia : s.intervalActive
      · rfl
      · have := (h3 hia).1
        omega
    obtain ⟨hp, hle, hiff⟩ := h4 hact
    rw [heq]
    refine ⟨h1, h2, ?_, ?_⟩
    · intro hf
      have hf' : s.intervalActive = true := hf
      rw [hact] at hf'
      cases hf'
    · intro _
      refine ⟨hp, ?_, ?_⟩
      · show s.pendingReady - 1 ≤ 1
        omega
      · show s.pendingReady - 1 = 1 ↔ false = true
        constructor
        · intro hc
          omega
        · intro hc
          cases hc
  · unfold StartupInv
    rw [e1, e2, e3, e4]
    exact ⟨h1, h2, h3, h4⟩

theorem startupInv_reachable (h : Host) : ∀ s, Reachable h s → StartupInv s :=
  reachable_induction h startupInv_initial (startupInv_step h)

theorem readyFirings_budget (h : Host) :
    ∀ events s, readyFirings h s events + readyBudget (run h s events) = readyBudget s := by
  intro events
  induction events with
  | nil =>
    intro s
    simp [readyFirings, run_nil]
  | cons e rest ih =>
    intro s
    have hih := ih (step h s e)
    rw [run_cons]
    rcases step_startup_cases h s e with ⟨rfl, hact, heq⟩ | ⟨rfl, hpos, heq⟩ |
      ⟨-, e2, e3, -, -, hr⟩
    · have hb : readyBudget (step h s .tick) = readyBudget s := by
        rw [heq]
        unfold intervalTick readyBudget
        split <;> (simp [hact]; try omega)
      simp only [readyFirings]
      omega
    · have hb : readyBudget (step h s .readyTimer) + 1 = readyBudget s := by
        rw [heq]
        unfold readyTimerFires readyBudget
        simp only
        omega
      simp only [readyFirings, hpos, if_true]
      omega
    · have hb : readyBudget (step h s e) = readyBudget s := by
        unfold readyBudget
        rw [e2, e3]
      cases e with
      | readyTimer =>
        have h0 := hr rfl
        simp only [readyFirings, h0, Nat.lt_irrefl, if_false]
        omega
      | _ =>
        simp only [readyFirings]
        omega

theorem readyBudget_of_inv {s : AppState} (hs : StartupInv s) :
    readyBudget s = if s.initialLoading then 1 else 0 := by
  obtain ⟨-, -, h3, h4⟩ := hs
  unfold readyBudget
  cases hact : s.intervalActive
  · obtain ⟨-, hle, hiff⟩ := h4 hact
    cases hi : s.initialLoading
    · have hne : s.pendingReady ≠ 1 := fun h1 => by
        have := hiff.mp h1
        rw [hi] at this
        cases this
      simp
      omega
    · have := hiff.mpr hi
      simp [this]
  · obtain ⟨hp, hi⟩ := h3 hact
    simp [hp, hi]

theorem progress_formula (h : Host) :
    ∀ events s, StartupInv s →
      (run h s events).loadingProgress =
        min (s.loadingProgress + 10 * ticksRun h s events) 100 := by
  intro events
  induction events with
  | nil =>
    intro s hs
    have := hs.1
    simp only [run_nil, ticksRun]
    omega
  | cons e rest ih =>
    intro s hs
    have hih := ih (step h s e) (startupInv_step h s e hs)
    rw [run_cons, hih]
    rcases step_startup_cases h s e with ⟨rfl, hact, heq⟩ | ⟨rfl, hpos, heq⟩ |
      ⟨e1, -, -, -, ht, -⟩
    · have hp : (step h s .tick).loadingProgress = min (s.loadingProgress + 10) 100 := by
        rw [heq]
        unfold intervalTick
        have := hs.1
        have := hs.2.1
        split
        · show 100 = _
          omega
        · show s.loadingProgress + 10 = _
          omega
      simp only [ticksRun, hact, if_true]
      rw [hp]
      omega
    · have hp : (step h s .readyTimer).loadingProgress = s.loadingProgress := by
        rw [heq]
        rfl
      simp only [ticksRun]
      rw [hp]
      omega
    · cases e with
      | tick =>
        have h0 := ht rfl
        simp only [ticksRun, h0]
        rw [e1]
        simp
      | _ =>
        simp only [ticksRun]
        rw [e1]
        omega

theorem run_ticks (h : Host) (k : Nat) :
    (run h initialState (List.replicate k .tick)).loadingProgress = min (10 * k) 100 ∧
    (run h initialState (List.replicate k .tick)).intervalActive = decide (k ≤ 10) := by
  induction k with
  | zero => exact ⟨rfl, rfl⟩
  | succ k ih =>
    obtain ⟨hp, ha⟩ := ih
    rw [List.replicate_succ', run_append, run_cons, run_nil]
    by_cases hk : k ≤ 10
    · have hact : (run h initialState (List.replicate k .tick)).intervalActive = true := by
        rw [ha]; simpa using hk
      have hstep : step h (run h initialState (List.replicate k .tick)) .tick =
          intervalTick (run h initialState (List.replicate k .tick)) := by
        simp [step, Event.enabled, hact, Event.apply]
      rw [hstep]
      unfold intervalTick
      split
      · rename_i hge
        rw [hp] at hge
        have hk10 : k = 10 := by omega
        subst hk10
        exact ⟨rfl, rfl⟩
      · rename_i hlt
        rw [hp] at hlt
        constructor
        · show (run h initialState (List.replicate k .tick)).loadingProgress + 10 = _
          rw [hp]
          omega
        · show (run h initialState (List.replicate k .tick)).intervalActive = _
          rw [hact]
          have : k + 1 ≤ 10 := by omega
          simp [this]
    · have hact : (run h initialState (List.replicate k .tick)).intervalActive = false := by
        rw [ha]; simpa using hk
      have hstep : step h (run h initialState (List.replicate k .tick)) .tick =
          run h initialState (List.replicate k .tick) := by
        simp [step, Event.enabled, hact]
      rw [hstep, hp, hact]
      constructor
      · omega
      · have : ¬ k + 1 ≤ 10 := by omega
        simp [this]

theorem ready_after_eleven_ticks (h : Host) :
    (run h initialState (List.replicate 11 .tick ++ [.readyTimer])).initialLoading = false := by
  rw [run_append, run_cons, run_nil]
  obtain ⟨-, ha⟩ := run_ticks h 11
  have hinv := startupInv_reachable h _ ⟨List.replicate 11 .tick, rfl⟩
  generalize run h initialState (List.replicate 11 .tick) = t at ha hinv ⊢
  have hact : t.intervalActive = false := by
    rw [ha]; decide
  have hiff := (hinv.2.2.2 hact).2.2
  by_cases hpos : 0 < t.pendingReady
  · simp [step, Event.enabled, hpos, Event.apply, readyTimerFires]
  · have hzero : t.pendingReady = 0 := by omega
    have hstep : step h t .readyTimer = t := by
      simp [step, Event.enabled, hzero]
    rw [hstep]
    cases hi : t.initialLoading
    · rfl
    · have := hiff.mpr hi
      omega

/-- C13: in every run the ready callback has run once when `initialLoading` is
false and not at all while it is true, so never twice; eleven ticks and the
500 ms timer make it run; a ready timer is scheduled, and `initialLoading` is
false, only in states whose `loadingProgress` is 100, never below; and once
`initialLoading` is false every event leaves it false, the progress at 100
and the interval cleared. -/
theorem startup_ready_once (h : Host) :
    (∀ events, readyFirings h initialState events =
      if (run h initialState events).initialLoading then 0 else 1) ∧
    (∀ events, readyFirings h initialState events ≤ 1) ∧
    (run h initialState (List.replicate 11 .tick ++ [.readyTimer])).initialLoading = false ∧
    (∀ s, Reachable h s → 0 < s.pendingReady → s.loadingProgress = 100) ∧
    (∀ s, Reachable h s → s.loadingProgress < 100 →
      s.initialLoading = true ∧ s.pendingReady = 0) ∧
    (∀ s e, Reachable h s → s.initialLoading = false →
      (step h s e).initialLoading = false ∧ (step h s e).loadingProgress = 100 ∧
      (step h s e).intervalActive = false ∧ (step h s e).pendingReady = 0) := by
  have hcount : ∀ events, readyFirings h initialState events =
      if (run h initialState events).initialLoading then 0 else 1 := by
    intro events
    have hb := readyFirings_budget h events initialState
    have hinv := startupInv_reachable h _ ⟨events, rfl⟩
    rw [readyBudget_of_inv hinv] at hb
    have h1 : readyBudget initialState = 1 := rfl
    rw [h1] at hb
    cases hi : (run h initialState events).initialLoading <;> simp [hi] at hb ⊢ <;> omega
  have hdone : ∀ s, Reachable h s → s.initialLoading = false →
      s.loadingProgress = 100 ∧ s.intervalActive = false ∧ s.pendingReady = 0 := by
    intro s hs hi
    obtain ⟨-, -, h3, h4⟩ := startupInv_reachable h s hs
    have hact : s.intervalActive = false := by
      cases hia : s.intervalActive
      · rfl
      · have := (h3 hia).2
        rw [hi] at this
        cases this
    obtain ⟨hp, hle, hiff⟩ := h4 hact
    refine ⟨hp, hact, ?_⟩
    have hne : s.pendingReady ≠ 1 := fun h1 => by
      have := hiff.mp h1
      rw [hi] at this
      cases this
    omega
  refine ⟨hcount, ?_, ready_after_eleven_ticks h, ?_, ?_, ?_⟩
  · intro events
    rw [hcount events]
    split <;> omega
  · intro s hs hpos
    obtain ⟨-, -, h3, h4⟩ := startupInv_reachable h s hs
    cases hia : s.intervalActive
    · exact (h4 hia).1
    · have := (h3 hia).1
      omega
  · intro s hs hlt
    obtain ⟨-, -, h3, h4⟩ := startupInv_reachable h s hs
    cases hia : s.intervalActive
    · have := (h4 hia).1
      omega
    · exact ⟨(h3 hia).2, (h3 hia).1⟩
  · intro s e hs hi
    have hs' := reachable_step h hs e
    obtain ⟨hp, hact, hz⟩ := hdone s hs hi
    rcases step_startup_cases h s e with ⟨-, hact', -⟩ | ⟨-, hpos, -⟩ | ⟨e1, e2, e3, e4, -, -⟩
    · rw [hact] at hact'
      cases hact'
    · omega
    · rw [e1, e2, e3, e4]
      exact ⟨hi, hp, hact, hz⟩

/-- C13, at the run of eleven ticks followed by the ready timer: the ready
callback has run once. -/
theorem startup_ready_once_witness :
    readyFirings sampleHost initialState (List.replicate 11 .tick ++ [.readyTimer]) = 1 := by
  have hcount := (startup_ready_once sampleHost).1 (List.replicate 11 .tick ++ [.readyTimer])
  rw [(startup_ready_once sampleHost).2.2.1] at hcount
  exact hcount

/-- C19: `loadingProgress` starts at 0; after `k` interval ticks it is
`min (10 * k) 100`, and in every run, whatever else happens in between, it is
`min (10 * k) 100` for the number `k` of interval callbacks that ran; no event
decreases it or takes it above 100; the settlement of the probe does not
change it and the tick does not read `backendStatus`. -/
theorem loadingProgress_counter (h : Host) :
    initialState.loadingProgress = 0 ∧
    (∀ k, (run h initialState (List.replicate k .tick)).loadingProgress = min (10 * k) 100) ∧
    (∀ events, (run h initialState events).loadingProgress =
      min (10 * ticksRun h initialState events) 100) ∧
    (∀ s e, Reachable h s → s.loadingProgress ≤ (step h s e).loadingProgress ∧
      (step h s e).loadingProgress ≤ 100) ∧
    (∀ s o, (step h s (.probeSettles o)).loadingProgress = s.loadingProgress) ∧
    (∀ s status, (intervalTick { s with backendStatus := status }).loadingProgress =
      (intervalTick s).loadingProgress) := by
  refine ⟨rfl, fun k => (run_ticks h k).1, ?_, ?_, ?_, ?_⟩
  · intro events
    have hf := progress_formula h events initialState startupInv_initial
    rw [hf]
    show min (0 + 10 * ticksRun h initialState events) 100 = _
    rw [Nat.zero_add]
  · intro s e hs
    have hinv := startupInv_reachable h s hs
    have hinv' := startupInv_step h s e hinv
    refine ⟨?_, hinv'.1⟩
    rcases step_startup_cases h s e with ⟨-, -, heq⟩ | ⟨-, -, heq⟩ | ⟨e1, -, -, -, -, -⟩
    · rw [heq]
      unfold intervalTick
      split
      · rename_i hge
        have := hinv.1
        show s.loadingProgress ≤ 100
        omega
      · show s.loadingProgress ≤ s.loadingProgress + 10
        omega
    · rw [heq]
      exact Nat.le_refl _
    · rw [e1]
  · intro s o
    rcases step_startup_cases h s (.probeSettles o) with ⟨he, -, -⟩ | ⟨he, -, -⟩ |
      ⟨e1, -, -, -, -, -⟩
    · cases he
    · cases he
    · exact e1
  · intro s status
    unfold intervalTick
    simp only
    split <;> rfl

/-- C19, after 3 ticks and after 12 ticks, and in a run in which the probe is
rejected between two ticks. -/
theorem loadingProgress_counter_witness :
    (run sampleHost initialState (List.replicate 3 .tick)).loadingProgress = 30 ∧
    (run sampleHost initialState (List.replicate 12 .tick)).loadingProgress = 100 ∧
    (run sampleHost initialState [.tick, .probeSettles .rejected, .tick]).loadingProgress =
      min (10 * ticksRun sampleHost initialState [.tick, .probeSettles .rejected, .tick]) 100 :=
  ⟨(loadingProgress_counter sampleHost).2.1 3, (loadingProgress_counter sampleHost).2.1 12,
    (loadingProgress_counter sampleHost).2.2.1 _⟩

/-! ### The performance score of a product card -/

theorem str_truthy_of_dot (s a d : String) :
    (JSVal.str (s ++ (a ++ "." ++ d))).truthy = true := by
  have hlen : (s ++ (a ++ "." ++ d)).length ≠ 0 := by
    simp only [String.length_append]
    have : (".").length = 1 := rfl
    omega
  have hne : s ++ (a ++ "." ++ d) ≠ "" := by
    intro hEq
    rw [hEq] at hlen
    exact hlen rfl
  simp [JSVal.truthy, hne]

/-- The call `toFixed(1)` on a finite number of magnitude below `10 ^ 21`
writes the sign, an integer part and one decimal digit, whose value is within
one twentieth of the magnitude. -/
theorem toFixed1_fin (h : Host) (q : ℚ) (hq : |q| < 10 ^ 21) :
    ∃ a d : Nat, d < 10 ∧
      toFixed1 h (.fin q) = (if q < 0 then "-" else "") ++ (toString a ++ "." ++ toString d) ∧
      abs (((a : ℚ) * 10 + d) / 10 - abs q) ≤ 1 / 20 := by
  refine ⟨(⌊|q| * 10 + 1 / 2⌋).toNat / 10, (⌊|q| * 10 + 1 / 2⌋).toNat % 10,
    Nat.mod_lt _ (by norm_num), ?_, ?_⟩
  · simp [toFixed1, not_le.mpr hq]
  · have hF : 0 ≤ ⌊|q| * 10 + 1 / 2⌋ := Int.floor_nonneg.mpr (by positivity)
    have hn : (((⌊|q| * 10 + 1 / 2⌋).toNat : ℕ) : ℚ) = ((⌊|q| * 10 + 1 / 2⌋ : ℤ) : ℚ) := by
      have := Int.toNat_of_nonneg hF
      exact_mod_cast congrArg (Int.cast : ℤ → ℚ) this
    have hsum : (((⌊|q| * 10 + 1 / 2⌋).toNat / 10 : ℕ) : ℚ) * 10 +
        (((⌊|q| * 10 + 1 / 2⌋).toNat % 10 : ℕ) : ℚ) =
        (((⌊|q| * 10 + 1 / 2⌋).toNat : ℕ) : ℚ) := by
      have hnat : (⌊|q| * 10 + 1 / 2⌋).toNat / 10 * 10 + (⌊|q| * 10 + 1 / 2⌋).toNat % 10 =
          (⌊|q| * 10 + 1 / 2⌋).toNat := by omega
      exact_mod_cast hnat
    rw [hsum, hn]
    have h1 := Int.floor_le (|q| * 10 + 1 / 2)
    have h2 := Int.lt_floor_add_one (|q| * 10 + 1 / 2)
    rw [abs_le]
    constructor <;> linarith

theorem performanceScore_nullish (h : Host) {product : JSVal}
    (hprod : product.nullish = false)
    (hv : (optProp (product.prop "marketing_performance") "average_score").nullish = true) :
    performanceScore h product = some (.str "8.5") := by
  unfold performanceScore
  simp only [hprod, Bool.false_eq_true, if_false]
  cases hs : optProp (product.prop "marketing_performance") "average_score" <;>
    simp_all [JSVal.nullish]

theorem performanceScore_num (h : Host) {product : JSVal} {n : JSNum}
    (hprod : product.nullish = false)
    (hv : optProp (product.prop "marketing_performance") "average_score" = .num n) :
    performanceScore h product = some (jsOr (.str (toFixed1 h n)) (.str "8.5")) := by
  unfold performanceScore
  simp only [hprod, Bool.false_eq_true, if_false]
  rw [hv]

theorem performanceScore_other (h : Host) {product : JSVal}
    (hnull : (optProp (product.prop "marketing_performance") "average_score").nullish = false)
    (hnum : isNum (optProp (product.prop "marketing_performance") "average_score") = false) :
    performanceScore h product = none := by
  unfold performanceScore
  split
  · rfl
  · cases hs : optProp (product.prop "marketing_performance") "average_score" <;>
      simp_all [JSVal.nullish, isNum]

/-- C11, as stated, fails: an `average_score` of `Infinity` (the JSON number
`1e999`) is shown as `Infinity` and one of NaN as `NaN`, not as `8.5`, and an
`average_score` that is a string raises an error. -/
theorem performanceScore_not_default :
    performanceScore sampleHost
      (.obj [("marketing_performance", .obj [("average_score", .num .posInf)])]) =
      some (.str "Infinity") ∧
    performanceScore sampleHost
      (.obj [("marketing_performance", .obj [("average_score", .num .nan)])]) =
      some (.str "NaN") ∧
    performanceScore sampleHost
      (.obj [("marketing_performance", .obj [("average_score", .str "high")])]) = none :=
  ⟨rfl, rfl, rfl⟩

/-- C11, amended: for a product that is `null` or `undefined` the card raises
an error; for every other product the score is the default `8.5` when
`marketing_performance` is absent or null and when `average_score` is absent
or null; for a finite `average_score` of magnitude below `10 ^ 21` it is the
number written with its sign, an integer part and one decimal digit, within
one twentieth of its magnitude; for NaN and the infinities it is `NaN`,
`Infinity` and `-Infinity`; a value that is neither absent nor a number raises
an error. -/
theorem performanceScore_spec (h : Host) (product : JSVal) :
    (product.nullish = true →
      performanceScore h product = none ∧ productCard h product = none) ∧
    (product.nullish = false →
      ((product.prop "marketing_performance").nullish = true →
        performanceScore h product = some (.str "8.5")) ∧
      ((optProp (product.prop "marketing_performance") "average_score").nullish = true →
        performanceScore h product = some (.str "8.5")) ∧
      (∀ q : ℚ,
        optProp (product.prop "marketing_performance") "average_score" = .num (.fin q) →
        abs q < 10 ^ 21 →
        ∃ a d : Nat, d < 10 ∧
          performanceScore h product =
            some (.str ((if q < 0 then "-" else "") ++ (toString a ++ "." ++ toString d))) ∧
          abs (((a : ℚ) * 10 + d) / 10 - abs q) ≤ 1 / 20) ∧
      (optProp (product.prop "marketing_performance") "average_score" = .num .nan →
        performanceScore h product = some (.str "NaN")) ∧
      (optProp (product.prop "marketing_performance") "average_score" = .num .posInf →
        performanceScore h product = some (.str "Infinity")) ∧
      (optProp (product.prop "marketing_performance") "average_score" = .num .negInf →
        performanceScore h product = some (.str "-Infinity")) ∧
      ((optProp (product.prop "marketing_performance") "average_score").nullish = false →
        isNum (optProp (product.prop "marketing_performance") "average_score") = false →
        performanceScore h product = none)) := by
  constructor
  · intro hnull
    simp [performanceScore, productCard, hnull]
  · intro hprod
    refine ⟨?_, performanceScore_nullish h hprod, ?_, ?_, ?_, ?_, performanceScore_other h⟩
    · intro hmp
      apply performanceScore_nullish h hprod
      simp only [optProp, hmp, if_true]
      rfl
    · intro q hv hq
      obtain ⟨a, d, hd, hfix, hbound⟩ := toFixed1_fin h q hq
      refine ⟨a, d, hd, ?_, hbound⟩
      rw [performanceScore_num h hprod hv, hfix, jsOr_eq_left _ (str_truthy_of_dot _ _ _)]
    · intro hv
      rw [performanceScore_num h hprod hv]
      rfl
    · intro hv
      rw [performanceScore_num h hprod hv]
      rfl
    · intro hv
      rw [performanceScore_num h hprod hv]
      rfl

/-- C11, amended, at a product without `marketing_performance`, at the first
default product (score 8.5) and at the product `null`. -/
theorem performanceScore_spec_witness :
    performanceScore sampleHost (.obj [("name", .str "Travel Mug")]) = some (.str "8.5") ∧
    (∃ a d : Nat, d < 10 ∧
      performanceScore sampleHost
        (defaultProduct "Premium Product A" 14999 92
          ["wireless", "premium", "innovative", "quality"] 850) =
        some (.str ((if (850 : ℚ) / 100 < 0 then "-" else "") ++
          (toString a ++ "." ++ toString d))) ∧
      abs (((a : ℚ) * 10 + d) / 10 - abs ((850 : ℚ) / 100)) ≤ 1 / 20) ∧
    performanceScore sampleHost .null = none :=
  ⟨((performanceScore_spec sampleHost (.obj [("name", .str "Travel Mug")])).2 rfl).1 rfl,
    ((performanceScore_spec sampleHost
      (defaultProduct "Premium Product A" 14999 92
        ["wireless", "premium", "innovative", "quality"] 850)).2 rfl).2.2.1
      ((850 : ℚ) / 100) rfl
      (by rw [abs_of_nonneg (by norm_num)]; norm_num),
    ((performanceScore_spec sampleHost .null).1 rfl).1⟩

/-! ### Fallback constants -/

theorem jsOr_eq_right {a : JSVal} (b : JSVal) (ha : a.truthy = false) : jsOr a b = b := by
  simp [jsOr, ha]

theorem populated_defaultProduct (name : String) (price similarity : Nat)
    (features : List String) (score : Nat) (hsim : similarity ≤ 100) :
    PopulatedProduct (defaultProduct name price similarity features score) := by
  refine ⟨rfl, rfl, rfl, ⟨(similarity : ℚ) / 100, rfl, ?_, ?_⟩, ?_, rfl⟩
  · positivity
  · rw [div_le_one (by norm_num)]
    exact_mod_cast hsim
  · simp [defaultProduct, JSVal.prop, lookupKey, isStrArr, strArr, isStr]

/-- C18: for the empty raw result the view model holds three tones, three
value propositions, a core message, three success metrics, three similar
products with every field populated and a similarity between 0 and 1, a
platform-content map with one platform that has caption templates and primary
hashtags, the predicted engagement `'8.2'`, the confidence `'High'`, three
success factors, and non-empty tracking and tip lists; `null` and every raw
result whose supplied fields are all absent or falsy give the same view
model. -/
theorem fallback_constants :
    (∃ a b c, (normalize (.obj [])).targetTones = strArr [a, b, c]) ∧
    (∃ a b c, (normalize (.obj [])).keyValuePropositions = strArr [a, b, c]) ∧
    (∃ m, (normalize (.obj [])).coreMessage = .str m ∧ m ≠ "") ∧
    (∃ a b c, (normalize (.obj [])).successMetrics = strArr [a, b, c]) ∧
    (∃ p1 p2 p3, (normalize (.obj [])).similarProducts = .arr [p1, p2, p3] ∧
      PopulatedProduct p1 ∧ PopulatedProduct p2 ∧ PopulatedProduct p3) ∧
    (∃ platform content captions tags,
      (normalize (.obj [])).platformContent = .obj [(platform, content)] ∧
      content.prop "caption_templates" = strArr captions ∧ captions ≠ [] ∧
      (content.prop "hashtag_strategy").prop "primary" = strArr tags ∧ tags ≠ []) ∧
    (normalize (.obj [])).predictedEngagement = .str "8.2" ∧
    (normalize (.obj [])).confidenceLevel = .str "High" ∧
    (∃ a b c, (normalize (.obj [])).keySuccessFactors = strArr [a, b, c]) ∧
    (∃ xs, (normalize (.obj [])).performanceTracking = strArr xs ∧ xs ≠ []) ∧
    (∃ xs, (normalize (.obj [])).optimizationTips = strArr xs ∧ xs ≠ []) ∧
    normalize .null = normalize (.obj []) ∧
    (∀ result, (supplied result).NoneTruthy → normalize result = normalize (.obj [])) := by
  refine ⟨⟨_, _, _, rfl⟩, ⟨_, _, _, rfl⟩, ⟨_, rfl, by decide⟩, ⟨_, _, _, rfl⟩,
    ⟨_, _, _, rfl, populated_defaultProduct _ _ _ _ _ (by decide),
      populated_defaultProduct _ _ _ _ _ (by decide),
      populated_defaultProduct _ _ _ _ _ (by decide)⟩,
    ⟨_, _, _, _, rfl, rfl, by simp, rfl, by simp⟩, rfl, rfl, ⟨_, _, _, rfl⟩,
    ⟨_, rfl, by simp⟩, ⟨_, rfl, by simp⟩, rfl, ?_⟩
  rintro result ⟨h1, h2, h3, h4, h5, h6, h7, h8, h9, h10, h11⟩
  simp only [supplied] at h1 h2 h3 h4 h5 h6 h7 h8 h9 h10 h11
  have hempty : normalize (.obj []) =
      { targetTones := defaultTargetTones,
        keyValuePropositions := defaultKeyValuePropositions,
        coreMessage := defaultCoreMessage, successMetrics := defaultSuccessMetrics,
        similarProducts := defaultSimilarProducts, platformContent := defaultPlatformContent,
        predictedEngagement := defaultPredictedEngagement,
        confidenceLevel := defaultConfidenceLevel,
        keySuccessFactors := defaultKeySuccessFactors,
        performanceTracking := defaultPerformanceTracking,
        optimizationTips := defaultOptimizationTips } := rfl
  rw [hempty]
  simp only [normalize, targetTones, keyValuePropositions, coreMessage, successMetrics,
    similarProducts, platformContent, predictedEngagement, confidenceLevel, keySuccessFactors,
    performanceTracking, optimizationTips, jsOr_eq_right _ h1, jsOr_eq_right _ h2,
    jsOr_eq_right _ h3, jsOr_eq_right _ h4, jsOr_eq_right _ h5, jsOr_eq_right _ h6,
    jsOr_eq_right _ h7, jsOr_eq_right _ h8, jsOr_eq_right _ h9, jsOr_eq_right _ h10,
    jsOr_eq_right _ h11]

/-- C18, at the payload of the scenario without `similar_products`, whose
supplied fields are all absent. -/
theorem fallback_constants_witness :
    (supplied smartMugNoSimilar).NoneTruthy ∧
    normalize smartMugNoSimilar = normalize (.obj []) :=
  have hnone : (supplied smartMugNoSimilar).NoneTruthy :=
    ⟨rfl, rfl, rfl, rfl, rfl, rfl, rfl, rfl, rfl, rfl, rfl⟩
  ⟨hnone, fallback_constants.2.2.2.2.2.2.2.2.2.2.2.2 smartMugNoSimilar hnone⟩

/-! ### Editing after a failure -/

theorem step_error (h : Host) (s : AppState) (e : Event) :
    (step h s e).error = s.error ∨ e = .submitClick ∨ ∃ o, e = .submitSettles o := by
  unfold step
  split
  · cases e with
    | submitClick => exact Or.inr (Or.inl rfl)
    | submitSettles o => exact Or.inr (Or.inr ⟨o, rfl⟩)
    | tick => left; simp only [Event.apply, intervalTick]; split <;> rfl
    | showTimer => left; simp only [Event.apply, showTimerFires]; split <;> rfl
    | probeSettles o =>
      left
      cases o with
      | rejected => rfl
      | response status => simp only [Event.apply, checkBackendConnection]; split <;> rfl
    | _ => exact Or.inl rfl
  · exact Or.inl rfl

/-- C22, as stated, fails: after a submission that failed with the message
`Failed to fetch`, editing the name leaves that message surfaced. -/
theorem handleChange_keeps_error :
    failedState.error = "Failed to fetch" ∧
    (handleChange "name" "Smart Mug 2" failedState).error = "Failed to fetch" ∧
    (step sampleHost failedState (.change "name" "Smart Mug 2")).error = "Failed to fetch" ∧
    "Failed to fetch" ≠ "" :=
  ⟨rfl, rfl, rfl, by decide⟩

/-- C22, amended: `handleChange` writes `formData` only, so editing a field
leaves the surfaced error, `result` and `loading` as they were; the error is
cleared by the next submit click, and no event other than a submit click or
the settlement of a submission changes it. -/
theorem handleChange_error (h : Host) (s : AppState) :
    (∀ name value, (handleChange name value s).error = s.error ∧
      (handleChange name value s).result = s.result ∧
      (handleChange name value s).loading = s.loading ∧
      (step h s (.change name value)).error = s.error) ∧
    (submitBegin s).error = "" ∧
    (∀ e, (step h s e).error ≠ s.error → e = .submitClick ∨ ∃ o, e = .submitSettles o) := by
  refine ⟨fun name value => ⟨rfl, rfl, rfl, ?_⟩, rfl, ?_⟩
  · rcases step_error h s (.change name value) with heq | he | ⟨o, he⟩
    · exact heq
    · cases he
    · cases he
  · intro e hne
    rcases step_error h s e with heq | he
    · exact absurd heq hne
    · exact he

/-- C22, amended, at the state after a submission that failed with
`Failed to fetch`: an edit keeps the message and the next submit click clears
it. -/
theorem handleChange_error_witness :
    (handleChange "name" "Smart Mug 2" failedState).error = failedState.error ∧
    (submitBegin (handleChange "name" "Smart Mug 2" failedState)).error = "" :=
  ⟨((handleChange_error sampleHost failedState).1 "name" "Smart Mug 2").1,
    (handleChange_error sampleHost (handleChange "name" "Smart Mug 2" failedState)).2.1⟩

/-! ### Success-metric labels -/

theorem replaceFirstUnderscore_count (cs : List Char) :
    (replaceFirstUnderscore cs).count '_' = cs.count '_' - 1 := by
  induction cs with
  | nil => rfl
  | cons c rest ih =>
    by_cases hc : c = '_'
    · subst hc
      simp [replaceFirstUnderscore, List.count_cons]
    · simp [replaceFirstUnderscore, hc, List.count_cons, ih]

theorem replaceFirstUnderscore_split (pre post : List Char) (hpre : '_' ∉ pre) :
    replaceFirstUnderscore (pre ++ '_' :: post) = pre ++ ' ' :: post := by
  induction pre with
  | nil => simp [replaceFirstUnderscore]
  | cons c rest ih =>
    have hc : c ≠ '_' := fun hEq => hpre (by simp [hEq])
    have hrest : '_' ∉ rest := fun hmem => hpre (List.mem_cons_of_mem c hmem)
    simp [replaceFirstUnderscore, hc, ih hrest]

theorem replaceFirstUnderscore_none (cs : List Char) (hcs : '_' ∉ cs) :
    replaceFirstUnderscore cs = cs := by
  induction cs with
  | nil => rfl
  | cons c rest ih =>
    have hc : c ≠ '_' := fun hEq => hcs (by simp [hEq])
    have hrest : '_' ∉ rest := fun hmem => hcs (List.mem_cons_of_mem c hmem)
    simp [replaceFirstUnderscore, hc, ih hrest]

/-- C27: for every success-metric tag that is a string the label is the tag
with its first underscore, and only that one, replaced by a space: it has one
underscore less than the tag, it is the tag itself when the tag has no
underscore, and `click_through_rate` gives `click through_rate`. -/
theorem metricLabel_first_underscore (s : String) :
    ∃ label, metricLabel (.str s) = some label ∧
      label.toList.count '_' = s.toList.count '_' - 1 ∧
      ('_' ∉ s.toList → label = s) ∧
      (∀ pre post, '_' ∉ pre → s.toList = pre ++ '_' :: post →
        label.toList = pre ++ ' ' :: post) ∧
      metricLabel (.str "click_through_rate") = some "click through_rate" := by
  refine ⟨String.mk (replaceFirstUnderscore s.toList), rfl, ?_, ?_, ?_, by decide⟩
  · exact replaceFirstUnderscore_count s.toList
  · intro hs
    rw [replaceFirstUnderscore_none _ hs]
    rfl
  · intro pre post hpre hsplit
    show replaceFirstUnderscore s.toList = _
    rw [hsplit, replaceFirstUnderscore_split pre post hpre]

/-- C27, at the tags `click_through_rate` and `reach`. -/
theorem metricLabel_first_underscore_witness :
    (∃ label, metricLabel (.str "click_through_rate") = some label ∧
      label.toList.count '_' = 1) ∧
    (∃ label, metricLabel (.str "reach") = some label ∧ label = "reach") := by
  obtain ⟨l1, h1, hc1, -, -, -⟩ := metricLabel_first_underscore "click_through_rate"
  obtain ⟨l2, h2, -, hn2, -, -⟩ := metricLabel_first_underscore "reach"
  exact ⟨⟨l1, h1, by rw [hc1]; decide⟩, ⟨l2, h2, hn2 (by decide)⟩⟩

/-! ### Fallback sites -/

theorem falsy_iff (v : JSVal) :
    v.truthy = false ↔
      (v = .undefined ∨ v = .null ∨ v = .bool false ∨ v = .num (.fin 0) ∨ v = .num .nan ∨
        v = .str "") := by
  cases v with
  | num n => cases n <;> simp [JSVal.truthy, JSNum.truthy]
  | _ => simp [JSVal.truthy]

theorem fallbackSite_jsOr (a b : JSVal) : FallbackSite a (jsOr a b) b :=
  ⟨fun ha => jsOr_eq_left b ha, fun ha => jsOr_eq_right b ha⟩

/-- C26: a value is falsy exactly when it is `undefined`, `null`, `false`, 0,
NaN or `''`; at each of the eleven fallback expressions and at the two count
metric cards the value is the supplied one when that is truthy and the
fallback constant otherwise; so a supplied empty list or empty map is kept and
its panel renders no item, and a supplied predicted engagement of 0 is shown
as `'8.2'`. -/
theorem fallback_exactly_when_falsy (h : Host) (result : JSVal) :
    (∀ v : JSVal, v.truthy = false ↔
      (v = .undefined ∨ v = .null ∨ v = .bool false ∨ v = .num (.fin 0) ∨ v = .num .nan ∨
        v = .str "")) ∧
    FallbackSite (supplied result).targetTones (normalize result).targetTones
      defaultTargetTones ∧
    FallbackSite (supplied result).keyValuePropositions (normalize result).keyValuePropositions
      defaultKeyValuePropositions ∧
    FallbackSite (supplied result).coreMessage (normalize result).coreMessage
      defaultCoreMessage ∧
    FallbackSite (supplied result).successMetrics (normalize result).successMetrics
      defaultSuccessMetrics ∧
    FallbackSite (supplied result).similarProducts (normalize result).similarProducts
      defaultSimilarProducts ∧
    FallbackSite (supplied result).platformContent (normalize result).platformContent
      defaultPlatformContent ∧
    FallbackSite (supplied result).predictedEngagement (normalize result).predictedEngagement
      defaultPredictedEngagement ∧
    FallbackSite (supplied result).confidenceLevel (normalize result).confidenceLevel
      defaultConfidenceLevel ∧
    FallbackSite (supplied result).keySuccessFactors (normalize result).keySuccessFactors
      defaultKeySuccessFactors ∧
    FallbackSite (supplied result).performanceTracking (normalize result).performanceTracking
      defaultPerformanceTracking ∧
    FallbackSite (supplied result).optimizationTips (normalize result).optimizationTips
      defaultOptimizationTips ∧
    FallbackSite (read2 result "similar_products" "length") (similarProductsMetric result)
      (JSVal.ofNat 3) ∧
    FallbackSite (optProp (read2 result "marketing_strategy" "target_tones") "length")
      (platformsMetric result) (JSVal.ofNat 3) ∧
    (optProp result "similar_products" = .arr [] →
      similarProducts result = .arr [] ∧ similarPanel h result = some []) ∧
    (optProp result "platform_content" = .obj [] →
      platformContent result = .obj [] ∧ contentPanel result = some []) ∧
    (read2 result "performance_insights" "predicted_engagement" = .num (.fin 0) →
      predictedEngagement result = .str "8.2") := by
  refine ⟨falsy_iff, fallbackSite_jsOr _ _, fallbackSite_jsOr _ _, fallbackSite_jsOr _ _,
    fallbackSite_jsOr _ _, fallbackSite_jsOr _ _, fallbackSite_jsOr _ _, fallbackSite_jsOr _ _,
    fallbackSite_jsOr _ _, fallbackSite_jsOr _ _, fallbackSite_jsOr _ _, fallbackSite_jsOr _ _,
    fallbackSite_jsOr _ _, fallbackSite_jsOr _ _, ?_, ?_, ?_⟩
  · intro hsp
    have hkeep : similarProducts result = .arr [] := by
      unfold similarProducts
      rw [hsp]
      rfl
    refine ⟨hkeep, ?_⟩
    unfold similarPanel
    rw [hkeep]
    rfl
  · intro hpc
    have hkeep : platformContent result = .obj [] := by
      unfold platformContent
      rw [hpc]
      rfl
    refine ⟨hkeep, ?_⟩
    unfold contentPanel
    rw [hkeep]
    rfl
  · intro hpe
    unfold predictedEngagement
    rw [hpe]
    exact jsOr_eq_right _ ((falsy_iff _).mpr (Or.inr (Or.inr (Or.inr (Or.inl rfl)))))

/-- C26, at the payload of the scenario, whose empty `similar_products` is
kept, and at a complete payload with a predicted engagement of 0. -/
theorem fallback_exactly_when_falsy_witness :
    (similarProducts smartMugResult = .arr [] ∧
      similarPanel sampleHost smartMugResult = some []) ∧
    predictedEngagement (completeResult (.num (.fin 0))) = .str "8.2" :=
  ⟨(fallback_exactly_when_falsy sampleHost smartMugResult).2.2.2.2.2.2.2.2.2.2.2.2.2.2.1 rfl,
    (fallback_exactly_when_falsy sampleHost
      (completeResult (.num (.fin 0)))).2.2.2.2.2.2.2.2.2.2.2.2.2.2.2.2 rfl⟩

/-! ### The probe is sent once and its outcome stays -/

theorem step_backend_cases (h : Host) (s : AppState) (e : Event) :
    (∃ o, e = .probeSettles o ∧ s.probePending = true ∧
      (step h s e).backendStatus = (checkBackendConnection o s).backendStatus ∧
      (step h s e).probePending = false) ∨
    ((step h s e).backendStatus = s.backendStatus ∧
      (step h s e).probePending = s.probePending ∧
      (∀ o, e = .probeSettles o → s.probePending = false)) := by
  unfold step
  split
  · rename_i hen
    cases e with
    | probeSettles o => exact Or.inl ⟨o, rfl, hen, rfl, rfl⟩
    | submitSettles o =>
      refine Or.inr ⟨?_, ?_, ?_⟩
      · simp [Event.apply, (submitSettle_fields h o s).2.2.2.1]
      · simp [Event.apply, (submitSettle_fields h o s).2.2.2.2.2.2.2.2.1]
      · intro o' he; cases he
    | tick =>
      refine Or.inr ⟨?_, ?_, ?_⟩
      · simp only [Event.apply, intervalTick]; split <;> rfl
      · simp only [Event.apply, intervalTick]; split <;> rfl
      · intro o' he; cases he
    | showTimer =>
      refine Or.inr ⟨?_, ?_, ?_⟩
      · simp only [Event.apply, showTimerFires]; split <;> rfl
      · simp only [Event.apply, showTimerFires]; split <;> rfl
      · intro o' he; cases he
    | readyTimer => refine Or.inr ⟨rfl, rfl, ?_⟩; intro o' he; cases he
    | change name value => refine Or.inr ⟨rfl, rfl, ?_⟩; intro o' he; cases he
    | submitClick => refine Or.inr ⟨rfl, rfl, ?_⟩; intro o' he; cases he
    | newAnalysisClick => refine Or.inr ⟨rfl, rfl, ?_⟩; intro o' he; cases he
    | tabClick id => refine Or.inr ⟨rfl, rfl, ?_⟩; intro o' he; cases he
  · rename_i hen
    refine Or.inr ⟨rfl, rfl, ?_⟩
    rintro o rfl
    simpa [Event.enabled] using hen

theorem probeSettlements_budget (h : Host) :
    ∀ events s, probeSettlements h s events +
      (if (run h s events).probePending then 1 else 0) = if s.probePending then 1 else 0 := by
  intro events
  induction events with
  | nil =>
    intro s
    simp [probeSettlements, run_nil]
  | cons e rest ih =>
    intro s
    have hih := ih (step h s e)
    rw [run_cons]
    rcases step_backend_cases h s e with ⟨o, rfl, hp, -, hp'⟩ | ⟨-, hp', hno⟩
    · simp only [probeSettlements, hp, if_true]
      rw [hp'] at hih
      simp only [Bool.false_eq_true, if_false] at hih
      omega
    · rw [hp'] at hih
      cases e with
      | probeSettles o =>
        have h0 := hno o rfl
        simp only [probeSettlements, h0, Bool.false_eq_true, if_false]
        rw [h0] at hih
        simp only [Bool.false_eq_true, if_false] at hih
        omega
      | _ =>
        simp only [probeSettlements]
        omega

theorem run_settled (h : Host) :
    ∀ events s, s.probePending = false →
      (run h s events).backendStatus = s.backendStatus ∧
      (run h s events).probePending = false := by
  intro events
  induction events with
  | nil => intro s hs; exact ⟨rfl, hs⟩
  | cons e rest ih =>
    intro s hs
    rw [run_cons]
    rcases step_backend_cases h s e with ⟨o, -, hp, -, -⟩ | ⟨hb, hp', -⟩
    · rw [hs] at hp
      cases hp
    · obtain ⟨h1, h2⟩ := ih (step h s e) (by rw [hp', hs])
      exact ⟨by rw [h1, hb], h2⟩

/-- C23: the probe is pending at startup and no event sends another; in every
run it has settled once when it is no longer pending and not at all before;
every event other than its settlement leaves `backendStatus` as it was, and
once it has settled every event does; so after it has settled as `'error'` or
`'disconnected'` the submit button is disabled after every further sequence
of events, whatever the draft. -/
theorem probe_once_terminal (h : Host) :
    initialState.probePending = true ∧
    (∀ s e, (step h s e).probePending = true → s.probePending = true) ∧
    (∀ events, probeSettlements h initialState events =
      if (run h initialState events).probePending then 0 else 1) ∧
    (∀ s e, (∀ o, e ≠ .probeSettles o) → (step h s e).backendStatus = s.backendStatus) ∧
    (∀ s e, s.probePending = false →
      (step h s e).backendStatus = s.backendStatus ∧ (step h s e).probePending = false) ∧
    (∀ s events, s.probePending = false →
      s.backendStatus = "error" ∨ s.backendStatus = "disconnected" →
      (run h s events).backendStatus = s.backendStatus ∧
      submitDisabled (run h s events) = true) := by
  refine ⟨rfl, ?_, ?_, ?_, ?_, ?_⟩
  · intro s e hp
    rcases step_backend_cases h s e with ⟨o, -, hs, -, -⟩ | ⟨-, hp', -⟩
    · exact hs
    · rw [← hp']; exact hp
  · intro events
    have hb := probeSettlements_budget h events initialState
    have h1 : initialState.probePending = true := rfl
    rw [h1] at hb
    cases hp : (run h initialState events).probePending <;> simp [hp] at hb ⊢ <;> omega
  · intro s e hne
    rcases step_backend_cases h s e with ⟨o, he, -, -, -⟩ | ⟨hb, -, -⟩
    · exact absurd he (hne o)
    · exact hb
  · intro s e hs
    have := run_settled h [e] s hs
    simpa [run_cons, run_nil] using this
  · intro s events hs hstatus
    obtain ⟨hb, -⟩ := run_settled h events s hs
    refine ⟨hb, ?_⟩
    have hne : (run h s events).backendStatus ≠ "connected" := by
      rw [hb]
      rcases hstatus with h1 | h1 <;> rw [h1] <;> decide
    simp [submitDisabled, hne]

/-- C23, at a rejected probe followed by the filling of the three required
fields: the status is still `'disconnected'` and the button disabled. -/
theorem probe_once_terminal_witness :
    (run sampleHost (step sampleHost readyState (.probeSettles .rejected))
      [.change "name" "Smart Mug", .change "category" "Kitchen",
        .change "description" "Keeps drinks hot"]).backendStatus = "disconnected" ∧
    submitDisabled (run sampleHost (step sampleHost readyState (.probeSettles .rejected))
      [.change "name" "Smart Mug", .change "category" "Kitchen",
        .change "description" "Keeps drinks hot"]) = true :=
  (probe_once_terminal sampleHost).2.2.2.2.2
    (step sampleHost readyState (.probeSettles .rejected)) _ rfl (Or.inr rfl)

/-! ### The draft and the request body -/

theorem assign_keys (k v : String) (fd : FormData) (hk : k ∈ fd.map Prod.fst) :
    (fd.assign k v).map Prod.fst = fd.map Prod.fst := by
  induction fd with
  | nil => simp at hk
  | cons kv rest ih =>
    obtain ⟨k', v'⟩ := kv
    by_cases hEq : k' = k
    · simp [FormData.assign, hEq]
    · have hmem : k ∈ rest.map Prod.fst := by
        simp only [List.map_cons, List.mem_cons] at hk
        rcases hk with hk | hk
        · exact absurd hk.symm hEq
        · exact hk
      simp [FormData.assign, hEq, ih hmem]

theorem lookup_assign_self (k v : String) (fd : FormData) :
    (fd.assign k v).lookup k = some v := by
  induction fd with
  | nil => simp [FormData.assign, List.lookup]
  | cons kv rest ih =>
    obtain ⟨k', v'⟩ := kv
    by_cases hEq : k' = k
    · simp [FormData.assign, hEq, List.lookup]
    · have hne : (k == k') = false := by simpa using fun hkk : k = k' => hEq hkk.symm
      simp [FormData.assign, hEq, List.lookup, hne, ih]

theorem lookup_assign_ne (k v k0 : String) (fd : FormData) (hne : k0 ≠ k) :
    (fd.assign k v).lookup k0 = fd.lookup k0 := by
  induction fd with
  | nil =>
    have hb : (k0 == k) = false := by simpa using hne
    simp [FormData.assign, List.lookup, hb]
  | cons kv rest ih =>
    obtain ⟨k', v'⟩ := kv
    by_cases hEq : k' = k
    · subst hEq
      have hb : (k0 == k') = false := by simpa using hne
      simp [FormData.assign, List.lookup, hb]
    · by_cases h0 : k0 = k'
      · subst h0
        simp [FormData.assign, hEq, List.lookup]
      · have hb : (k0 == k') = false := by simpa using h0
        simp [FormData.assign, hEq, List.lookup, hb, ih]

theorem applyEdits_spec :
    ∀ (edits : List (String × String)) (s : AppState),
      (∀ e ∈ edits, e.1 ∈ s.formData.map Prod.fst) →
      (applyEdits edits s).formData.map Prod.fst = s.formData.map Prod.fst ∧
      ∀ k v0, s.formData.lookup k = some v0 →
        (applyEdits edits s).formData.lookup k = some (latest k edits v0) := by
  intro edits
  induction edits with
  | nil =>
    intro s _
    exact ⟨rfl, fun k v0 hk => hk⟩
  | cons e rest ih =>
    intro s hedits
    have hkeys : (handleChange e.1 e.2 s).formData.map Prod.fst = s.formData.map Prod.fst :=
      assign_keys e.1 e.2 s.formData (hedits e (List.mem_cons_self e rest))
    have hrest : ∀ e' ∈ rest, e'.1 ∈ (handleChange e.1 e.2 s).formData.map Prod.fst := by
      intro e' he'
      rw [hkeys]
      exact hedits e' (List.mem_cons_of_mem e he')
    obtain ⟨h1, h2⟩ := ih (handleChange e.1 e.2 s) hrest
    refine ⟨by rw [← hkeys]; exact h1, ?_⟩
    intro k v0 hk
    show (applyEdits rest (handleChange e.1 e.2 s)).formData.lookup k =
      some (latest k rest (if e.1 = k then e.2 else v0))
    apply h2
    by_cases hEq : e.1 = k
    · rw [if_pos hEq, ← hEq]
      exact lookup_assign_self e.1 e.2 s.formData
    · rw [if_neg hEq]
      have := lookup_assign_ne e.1 e.2 k s.formData (fun hkk => hEq hkk.symm)
      exact this.trans hk

theorem step_formData (h : Host) (s : AppState) (e : Event) :
    (step h s e).formData = s.formData ∨
      ∃ name value, name ∈ fieldNames ∧
        (step h s e).formData = s.formData.assign name value := by
  unfold step
  split
  · rename_i hen
    cases e with
    | change name value =>
      right
      simp only [Event.enabled, Bool.and_eq_true] at hen
      exact ⟨name, value, List.elem_iff.mp hen.2, rfl⟩
    | submitSettles o => exact Or.inl (by simp [Event.apply, (submitSettle_fields h o s).1])
    | tick => left; simp only [Event.apply, intervalTick]; split <;> rfl
    | showTimer => left; simp only [Event.apply, showTimerFires]; split <;> rfl
    | probeSettles o =>
      left
      cases o with
      | rejected => rfl
      | response status => simp only [Event.apply, checkBackendConnection]; split <;> rfl
    | _ => exact Or.inl rfl
  · exact Or.inl rfl

theorem keys_five (fd : FormData) (hfd : fd.map Prod.fst = fieldNames) :
    ∃ v1 v2 v3 v4 v5, fd = [("name", v1), ("category", v2), ("description", v3),
      ("price", v4), ("target_audience", v5)] := by
  simp only [fieldNames, List.map_eq_cons_iff, List.map_eq_nil_iff] at hfd
  obtain ⟨⟨k1, v1⟩, r1, rfl, hk1, ⟨k2, v2⟩, r2, rfl, hk2, ⟨k3, v3⟩, r3, rfl, hk3,
    ⟨k4, v4⟩, r4, rfl, hk4, ⟨k5, v5⟩, r5, rfl, hk5, rfl⟩ := hfd
  simp only at hk1 hk2 hk3 hk4 hk5
  subst hk1 hk2 hk3 hk4 hk5
  exact ⟨v1, v2, v3, v4, v5, rfl⟩

/-- C24: after every sequence of edits whose names are among the five field
names the draft has exactly the five fields, in order, and each holds the
value most recently entered for it, or `''`; an edit leaves every other field
as it was; the same holds in every reachable state; and the body sent for a
draft is the JSON object of exactly these five fields with their values at
that moment. -/
theorem draft_and_body (h : Host) :
    (∀ edits : List (String × String), (∀ e ∈ edits, e.1 ∈ fieldNames) →
      (applyEdits edits initialState).formData.map Prod.fst = fieldNames ∧
      ∀ k ∈ fieldNames,
        (applyEdits edits initialState).formData.lookup k = some (latest k edits "")) ∧
    (∀ s name value k, k ≠ name →
      (handleChange name value s).formData.lookup k = s.formData.lookup k) ∧
    (∀ s name value, (handleChange name value s).formData.lookup name = some value) ∧
    (∀ s, Reachable h s → s.formData.map Prod.fst = fieldNames) ∧
    (∀ s, s.formData.map Prod.fst = fieldNames →
      ∃ v1 v2 v3 v4 v5,
        s.formData.lookup "name" = some v1 ∧ s.formData.lookup "category" = some v2 ∧
        s.formData.lookup "description" = some v3 ∧ s.formData.lookup "price" = some v4 ∧
        s.formData.lookup "target_audience" = some v5 ∧
        requestBody s = "\x7b" ++ ",".intercalate
          ["\"name\":" ++ jsonQuote v1, "\"category\":" ++ jsonQuote v2,
            "\"description\":" ++ jsonQuote v3, "\"price\":" ++ jsonQuote v4,
            "\"target_audience\":" ++ jsonQuote v5] ++ "\x7d") := by
  refine ⟨?_, ?_, ?_, ?_, ?_⟩
  · intro edits hedits
    obtain ⟨hkeys, hvals⟩ := applyEdits_spec edits initialState hedits
    refine ⟨hkeys, ?_⟩
    intro k hk
    apply hvals
    simp only [fieldNames, List.mem_cons, List.mem_singleton, List.not_mem_nil, or_false] at hk
    rcases hk with rfl | rfl | rfl | rfl | rfl <;> rfl
  · intro s name value k hne
    exact lookup_assign_ne name value k s.formData hne
  · intro s name value
    exact lookup_assign_self name value s.formData
  · refine @reachable_induction h (fun s => s.formData.map Prod.fst = fieldNames) rfl ?_
    intro s e hs
    rcases step_formData h s e with heq | ⟨name, value, hname, heq⟩
    · rw [heq]; exact hs
    · rw [heq, assign_keys name value s.formData (by rw [hs]; exact hname)]
      exact hs
  · intro s hs
    obtain ⟨v1, v2, v3, v4, v5, hfd⟩ := keys_five s.formData hs
    refine ⟨v1, v2, v3, v4, v5, ?_, ?_, ?_, ?_, ?_, ?_⟩
    · rw [hfd]; rfl
    · rw [hfd]; rfl
    · rw [hfd]; rfl
    · rw [hfd]; rfl
    · rw [hfd]; rfl
    · have e1 : jsonQuote "name" ++ ":" = "\"name\":" := by decide
      have e2 : jsonQuote "category" ++ ":" = "\"category\":" := by decide
      have e3 : jsonQuote "description" ++ ":" = "\"description\":" := by decide
      have e4 : jsonQuote "price" ++ ":" = "\"price\":" := by decide
      have e5 : jsonQuote "target_audience" ++ ":" = "\"target_audience\":" := by decide
      simp only [requestBody, jsonStringify, hfd, List.map_cons, List.map_nil, e1, e2, e3, e4,
        e5]

/-- C24, at the edits of the scenario, with the name entered twice. -/
theorem draft_and_body_witness :
    (applyEdits [("name", "Smart"), ("category", "Kitchen"), ("name", "Smart Mug"),
      ("description", "Keeps drinks hot")] initialState).formData.map Prod.fst = fieldNames ∧
    (applyEdits [("name", "Smart"), ("category", "Kitchen"), ("name", "Smart Mug"),
      ("description", "Keeps drinks hot")] initialState).formData.lookup "name" =
      some (latest "name" [("name", "Smart"), ("category", "Kitchen"), ("name", "Smart Mug"),
        ("description", "Keeps drinks hot")] "") ∧
    latest "name" [("name", "Smart"), ("category", "Kitchen"), ("name", "Smart Mug"),
        ("description", "Keeps drinks hot")] "" = "Smart Mug" :=
  have hw := (draft_and_body sampleHost).1
    [("name", "Smart"), ("category", "Kitchen"), ("name", "Smart Mug"),
      ("description", "Keeps drinks hot")] (by decide)
  ⟨hw.1, hw.2 "name" (by decide), by decide⟩

/-! ### Nested fields of a product card and of a platform block -/

/-- C21, as stated, fails: a similar-product record that has only a price is
rendered with no name, no category, no feature tag and `NaN` before
`% Match`; a platform entry without `caption_templates` is rendered as its
heading alone, and one without `hashtag_strategy.primary` with an empty
hashtag block. -/
theorem nested_fields_not_defaulted :
    productCard sampleHost (.obj [("price", hundredths 2499)]) =
      some { matchPercent := .nan, name := .undefined, category := .undefined,
             price := hundredths 2499, sharedFeatures := none, performance := .str "8.5" } ∧
    platformBlock ("Instagram", .obj []) =
      some { platform := "Instagram", captions := none, hashtagBlock := false,
             primary := none } ∧
    platformBlock ("Instagram", .obj [("caption_templates", strArr ["Sip smarter"]),
        ("hashtag_strategy", .obj [])]) =
      some { platform := "Instagram", captions := some [.str "Sip smarter"],
             hashtagBlock := true, primary := none } :=
  ⟨rfl, rfl, rfl⟩

theorem productCard_fields (h : Host) {product : JSVal}
    (hp : wellTypedProduct product = true) :
    ∃ card, productCard h product = some card ∧
      card.name = product.prop "name" ∧ card.category = product.prop "category" ∧
      card.price = product.prop "price" ∧
      ((product.prop "shared_features").nullish = true → card.sharedFeatures = none) ∧
      ((product.prop "marketing_performance").nullish = true →
        card.performance = .str "8.5") := by
  obtain ⟨card, hcard⟩ := Option.isSome_iff_exists.mp (productCard_isSome h hp)
  refine ⟨card, hcard, ?_⟩
  simp only [wellTypedProduct, Bool.and_eq_true] at hp
  obtain ⟨⟨⟨⟨⟨⟨ho, hname⟩, hcat⟩, hprice⟩, hsim⟩, hfeat⟩, hperf⟩ := hp
  have hnn : product.nullish = false := by
    cases product <;> simp_all [isObj, JSVal.nullish]
  obtain ⟨n, hn⟩ := toNumber_of_absentOr_isNum h hsim
  obtain ⟨score, hscore⟩ := performanceScore_isSome h hnn hperf
  have hdefault : (product.prop "marketing_performance").nullish = true →
      score = .str "8.5" := by
    intro hmp
    have hs := @performanceScore_nullish h product hnn
      (by simp only [optProp, hmp, if_true]; rfl)
    rw [hscore] at hs
    exact Option.some.inj hs
  by_cases hnull : (product.prop "shared_features").nullish = true
  · simp [productCard, hnn, hn, child_of_absentOr_isStr hname, child_of_absentOr_isStr hcat,
      child_of_absentOr_isNum hprice, hnull, hscore] at hcard
    subst hcard
    exact ⟨rfl, rfl, rfl, fun _ => rfl, hdefault⟩
  · have harr : isStrArr (product.prop "shared_features") = true := by
      rcases absentOr_elim hfeat with hn' | ha
      · exact absurd hn' hnull
      · exact ha
    obtain ⟨xs, hxs⟩ := Option.isSome_iff_exists.mp (sliceMap_isSome 4 harr)
    simp [productCard, hnn, hn, child_of_absentOr_isStr hname, child_of_absentOr_isStr hcat,
      child_of_absentOr_isNum hprice, hnull, hxs, hscore] at hcard
    subst hcard
    exact ⟨rfl, rfl, rfl, fun hc => absurd hc hnull, hdefault⟩

theorem platformBlock_fields {entry : String × JSVal}
    (hc : wellTypedContent entry.2 = true) :
    ∃ view, platformBlock entry = some view ∧
      ((entry.2.prop "caption_templates").nullish = true →
        view = { platform := entry.1, captions := none, hashtagBlock := false,
                 primary := none }) ∧
      (((entry.2.prop "hashtag_strategy").prop "primary").nullish = true →
        view.primary = none) := by
  obtain ⟨view, hview⟩ := Option.isSome_iff_exists.mp (platformBlock_isSome hc)
  refine ⟨view, hview, ?_, ?_⟩
  · intro hnull
    simp only [wellTypedContent, Bool.and_eq_true] at hc
    have hnn : entry.2.nullish = false := by
      cases hv : entry.2 <;> simp_all [isObj, JSVal.nullish]
    have hfalsy : (entry.2.prop "caption_templates").truthy = false := by
      cases hv : entry.2.prop "caption_templates" <;> simp_all [JSVal.nullish, JSVal.truthy]
    simp [platformBlock, hnn, hfalsy] at hview
    exact hview.symm
  · intro hprim
    unfold platformBlock at hview
    split at hview
    · cases hview
    · split at hview
      · cases hview
        rfl
      · cases hcap : sliceMap 2 (entry.2.prop "caption_templates") with
        | none => simp [hcap] at hview
        | some caps =>
          by_cases hhs : (entry.2.prop "hashtag_strategy").truthy = true
          · simp [hcap, hhs, hprim] at hview
            rw [← hview]
          · simp [hcap, hhs] at hview
            rw [← hview]

/-- C21, amended: the only nested fallback is the performance score.  For
every supplied similar-product record of the expected types the card renders;
its score is `8.5` when `marketing_performance` is missing, its name, category
and price are the supplied values, `undefined` (nothing on screen) when
missing, and it has no feature tag when `shared_features` is missing.  For
every supplied platform entry of the expected types the block renders; without
`caption_templates` it is its heading alone, and without
`hashtag_strategy.primary` it has no primary hashtag. -/
theorem nested_fallbacks (h : Host) :
    (∀ product, wellTypedProduct product = true →
      ∃ card, productCard h product = some card ∧
        card.name = product.prop "name" ∧ card.category = product.prop "category" ∧
        card.price = product.prop "price" ∧
        ((product.prop "shared_features").nullish = true → card.sharedFeatures = none) ∧
        ((product.prop "marketing_performance").nullish = true →
          card.performance = .str "8.5")) ∧
    (∀ kvs k, lookupKey k kvs = none → (JSVal.obj kvs).prop k = .undefined) ∧
    (∀ entry : String × JSVal, wellTypedContent entry.2 = true →
      ∃ view, platformBlock entry = some view ∧
        ((entry.2.prop "caption_templates").nullish = true →
          view = { platform := entry.1, captions := none, hashtagBlock := false,
                   primary := none }) ∧
        (((entry.2.prop "hashtag_strategy").prop "primary").nullish = true →
          view.primary = none)) := by
  refine ⟨fun product hp => productCard_fields h hp, ?_, fun entry hc => platformBlock_fields hc⟩
  intro kvs k hk
  simp [JSVal.prop, hk]

/-- C21, amended, at a record that has only a name and a price: the card
renders, with the score `8.5` and no feature tag. -/
theorem nested_fallbacks_witness :
    wellTypedProduct (.obj [("name", .str "Travel Mug"), ("price", hundredths 2499)]) = true ∧
    (∃ card, productCard sampleHost
        (.obj [("name", .str "Travel Mug"), ("price", hundredths 2499)]) = some card ∧
      card.name = .str "Travel Mug" ∧ card.sharedFeatures = none ∧
      card.performance = .str "8.5") := by
  refine ⟨rfl, ?_⟩
  obtain ⟨card, hcard, hname, -, -, hfeat, hperf⟩ :=
    (nested_fallbacks sampleHost).1
      (.obj [("name", .str "Travel Mug"), ("price", hundredths 2499)]) rfl
  exact ⟨card, hcard, hname, hfeat rfl, hperf rfl⟩

/-! ### The results view and the result -/

theorem run_ticks_state (h : Host) (k : Nat) (hk : k ≤ 10) :
    run h initialState (List.replicate k .tick) =
      { initialState with loadingProgress := 10 * k } := by
  induction k with
  | zero => rfl
  | succ k ih =>
    rw [List.replicate_succ', run_append, ih (by omega), run_cons, run_nil]
    have hlt : ¬ 10 * k ≥ 100 := by omega
    simp only [step, Event.enabled, Event.apply, intervalTick]
    have hact : initialState.intervalActive = true := rfl
    rw [if_pos hact, if_neg hlt, Nat.mul_succ]

theorem reachable_run (h : Host) {s : AppState} (hs : Reachable h s) (events : List Event) :
    Reachable h (run h s events) := by
  obtain ⟨before, rfl⟩ := hs
  exact ⟨before ++ events, run_append h initialState before events⟩

theorem reachable_readyState (h : Host) : Reachable h readyState := by
  refine ⟨List.replicate 10 .tick ++ [.tick, .readyTimer], ?_⟩
  rw [run_append, run_ticks_state h 10 (Nat.le_refl 10)]
  rfl

/-- C25, as stated, fails in two ways: a 200 response whose body is JSON
`null` is accepted and 300 ms later the results view is on screen with
`result` null; and when the submit button is clicked again before the
show-results timer of an accepted result fires, the timer puts the results
view on screen while `result` has been reset to null. -/
theorem results_shown_without_result :
    Reachable sampleHost (run sampleHost readyState
      (fillAndSubmit ++ [.submitSettles (.response 200 (.ok .null)), .showTimer])) ∧
    (run sampleHost readyState
      (fillAndSubmit ++ [.submitSettles (.response 200 (.ok .null)), .showTimer])).showResults =
      true ∧
    (run sampleHost readyState
      (fillAndSubmit ++ [.submitSettles (.response 200 (.ok .null)), .showTimer])).result =
      .null ∧
    Reachable sampleHost (run sampleHost readyState
      (fillAndSubmit ++ [.submitSettles (.response 200 (.ok smartMugResult)), .submitClick,
        .showTimer])) ∧
    (run sampleHost readyState
      (fillAndSubmit ++ [.submitSettles (.response 200 (.ok smartMugResult)), .submitClick,
        .showTimer])).showResults = true ∧
    (run sampleHost readyState
      (fillAndSubmit ++ [.submitSettles (.response 200 (.ok smartMugResult)), .submitClick,
        .showTimer])).result = .null :=
  ⟨reachable_run sampleHost (reachable_readyState sampleHost) _, rfl, rfl,
    reachable_run sampleHost (reachable_readyState sampleHost) _, rfl, rfl⟩

theorem showInv_congr {s t : AppState} (hl : t.loading = s.loading)
    (hsr : t.showResults = s.showResults) (hps : t.pendingShow = s.pendingShow)
    (hr : t.result = s.result) (hif : t.inFlight = s.inFlight) (hs : ShowInv s) :
    ShowInv t := by
  unfold ShowInv at hs ⊢
  rw [hl, hsr, hps, hr, hif]
  exact hs

theorem showInv_initial : ShowInv initialState := by
  refine ⟨rfl, ?_, by decide, ?_, ?_⟩
  · intro hl; cases hl
  · intro hsr; cases hsr
  · rintro (hsr | hps)
    · cases hsr
    · exact absurd hps (by decide)

theorem showInv_step (h : Host) (s : AppState) (e : Event) (hs : ShowInv s)
    (ho : match e with
      | .submitClick => s.pendingShow = 0
      | .submitSettles o => submitTry h o ≠ .ok .null
      | _ => True) :
    ShowInv (step h s e) := by
  unfold step
  split
  · rename_i hen
    cases e with
    | tick =>
      refine showInv_congr ?_ ?_ ?_ ?_ ?_ hs <;>
        (simp only [Event.apply, intervalTick]; split <;> rfl)
    | readyTimer => exact showInv_congr rfl rfl rfl rfl rfl hs
    | change name value => exact showInv_congr rfl rfl rfl rfl rfl hs
    | tabClick id => exact showInv_congr rfl rfl rfl rfl rfl hs
    | probeSettles o =>
      cases o with
      | rejected => exact showInv_congr rfl rfl rfl rfl rfl hs
      | response status =>
        refine showInv_congr ?_ ?_ ?_ ?_ ?_ hs <;>
          (simp only [Event.apply, checkBackendConnection]; split <;> rfl)
    | submitClick =>
      obtain ⟨h1, h2, h3, h4, h5⟩ := hs
      have hps : s.pendingShow = 0 := ho
      simp only [Event.enabled, formShown, submitDisabled, Bool.and_eq_true,
        Bool.not_eq_true', Bool.or_eq_false_iff] at hen
      have hload : s.loading = false := hen.2.1.1.1.1
      rw [hload] at h1
      refine ⟨?_, ?_, ?_, ?_, ?_⟩
      · show s.inFlight + 1 = 1
        simp only [Bool.false_eq_true, if_false] at h1
        omega
      · intro _
        exact ⟨rfl, hps⟩
      · show s.pendingShow ≤ 1
        omega
      · intro hc
        cases hc
      · rintro (hc | hc)
        · cases hc
        · have hc' : 0 < s.pendingShow := hc
          omega
    | submitSettles o =>
      obtain ⟨h1, h2, h3, h4, h5⟩ := hs
      have hpos : 0 < s.inFlight := by simpa [Event.enabled] using hen
      have hload : s.loading = true := by
        cases hl : s.loading
        · rw [hl] at h1
          simp only [Bool.false_eq_true, if_false] at h1
          omega
        · rfl
      obtain ⟨hsr, hps⟩ := h2 hload
      rw [hload] at h1
      simp only [if_true] at h1
      cases hr : submitTry h o with
      | ok data =>
        have hdata : data ≠ .null := by
          intro hnull
          apply ho
          rw [hr, hnull]
        refine ⟨?_, ?_, ?_, ?_, ?_⟩
        · simp [Event.apply, submitSettle, hr, h1]
        · intro hc
          simp [Event.apply, submitSettle, hr] at hc
        · simp [Event.apply, submitSettle, hr, hps]
        · intro hc
          simp [Event.apply, submitSettle, hr, hsr] at hc
        · intro _
          simpa [Event.apply, submitSettle, hr] using hdata
      | error message =>
        refine ⟨?_, ?_, ?_, ?_, ?_⟩
        · simp [Event.apply, submitSettle, hr, h1]
        · intro hc
          simp [Event.apply, submitSettle, hr] at hc
        · simp [Event.apply, submitSettle, hr, hps]
        · intro hc
          simp [Event.apply, submitSettle, hr, hsr] at hc
        · intro hc
          simp [Event.apply, submitSettle, hr, hsr, hps] at hc
    | showTimer =>
      obtain ⟨h1, h2, h3, h4, h5⟩ := hs
      have hpos : 0 < s.pendingShow := by simpa [Event.enabled] using hen
      have hne : s.pendingShow ≠ 0 := by omega
      have hload : s.loading = false := by
        cases hl : s.loading
        · rfl
        · have := (h2 hl).2
          omega
      have hres := h5 (Or.inr hpos)
      simp only [Event.apply, showTimerFires, if_neg hne]
      refine ⟨h1, ?_, ?_, ?_, ?_⟩
      · intro hc
        have hc' : s.loading = true := hc
        rw [hload] at hc'
        cases hc'
      · show s.pendingShow - 1 ≤ 1
        omega
      · intro _
        show s.pendingShow - 1 = 0
        omega
      · intro _
        exact hres
    | newAnalysisClick =>
      obtain ⟨h1, h2, h3, h4, h5⟩ := hs
      simp only [Event.enabled, resultsShown, Bool.and_eq_true] at hen
      have hps := h4 hen.2
      refine ⟨h1, ?_, h3, ?_, ?_⟩
      · intro hc
        exact ⟨rfl, (h2 hc).2⟩
      · intro hc
        cases hc
      · rintro (hc | hc)
        · cases hc
        · have hc' : 0 < s.pendingShow := hc
          omega
  · exact hs

theorem showInv_run (h : Host) :
    ∀ events s, ShowInv s → Orderly h s events → ShowInv (run h s events) := by
  intro events
  induction events with
  | nil => intro s hs _; exact hs
  | cons e rest ih =>
    intro s hs ho
    rw [run_cons]
    exact ih (step h s e) (showInv_step h s e hs ho.1) ho.2

/-- C25, amended: in every session in which no success response has the body
`null` and the submit button is never clicked while a show-results timer is
pending, `showResults = true` implies that `result` is not null, in the state
after every event; the invariant behind it holds initially and is kept by
every such session from any state in which it holds. -/
theorem results_shown_with_result (h : Host) :
    ShowInv initialState ∧
    (∀ s events, ShowInv s → Orderly h s events → ShowInv (run h s events)) ∧
    (∀ events, Orderly h initialState events →
      (run h initialState events).showResults = true →
      (run h initialState events).result ≠ .null) := by
  refine ⟨showInv_initial, fun s events hs ho => showInv_run h events s hs ho, ?_⟩
  intro events ho hshown
  exact (showInv_run h events initialState showInv_initial ho).2.2.2.2 (Or.inl hshown)

/-- C25, amended, at the scenario of the specification from the end of the
startup sequence: the result is accepted, the timer fires and the results
view is on screen with the result. -/
theorem results_shown_with_result_witness :
    ShowInv readyState ∧
    Orderly sampleHost readyState
      (fillAndSubmit ++ [.submitSettles (.response 200 (.ok smartMugResult)), .showTimer]) ∧
    (run sampleHost readyState
      (fillAndSubmit ++ [.submitSettles (.response 200 (.ok smartMugResult)),
        .showTimer])).showResults = true ∧
    (run sampleHost readyState
      (fillAndSubmit ++ [.submitSettles (.response 200 (.ok smartMugResult)),
        .showTimer])).result ≠ .null := by
  have hready : ShowInv readyState := by
    refine ⟨rfl, ?_, by decide, ?_, ?_⟩
    · intro hl; cases hl
    · intro hc; cases hc
    · rintro (hc | hc)
      · cases hc
      · exact absurd hc (by decide)
  have horderly : Orderly sampleHost readyState
      (fillAndSubmit ++ [.submitSettles (.response 200 (.ok smartMugResult)), .showTimer]) := by
    refine ⟨trivial, trivial, trivial, trivial, rfl, ?_, trivial, trivial⟩
    intro hc
    cases hc
  exact ⟨hready, horderly, rfl,
    ((results_shown_with_result sampleHost).2.1 readyState _ hready horderly).2.2.2.2
      (Or.inl rfl)⟩

/-! ### A rejected fetch, with other events in between -/

/-- In every reachable state one request is in flight exactly while `loading`
is true. -/
theorem inFlight_reachable (h : Host) :
    ∀ s, Reachable h s → s.inFlight = if s.loading then 1 else 0 := by
  refine @reachable_induction h (fun s => s.inFlight = if s.loading then 1 else 0) rfl ?_
  intro s e hs
  unfold step
  split
  · rename_i hen
    cases e with
    | tick => simp only [Event.apply, intervalTick]; split <;> exact hs
    | showTimer => simp only [Event.apply, showTimerFires]; split <;> exact hs
    | probeSettles o =>
      cases o with
      | rejected => exact hs
      | response status => simp only [Event.apply, checkBackendConnection]; split <;> exact hs
    | submitClick =>
      simp only [Event.enabled, formShown, submitDisabled, Bool.and_eq_true,
        Bool.not_eq_true', Bool.or_eq_false_iff] at hen
      have hload : s.loading = false := hen.2.1.1.1.1
      rw [hload] at hs
      simp only [Bool.false_eq_true, if_false] at hs
      show s.inFlight + 1 = 1
      omega
    | submitSettles o =>
      have hpos : 0 < s.inFlight := by simpa [Event.enabled] using hen
      have hload : s.loading = true := by
        cases hl : s.loading
        · rw [hl] at hs
          simp only [Bool.false_eq_true, if_false] at hs
          omega
        · rfl
      rw [hload] at hs
      simp only [if_true] at hs
      simp [Event.apply, (submitSettle_fields h o s).2.2.2.2.2.2.2.2.2, hs]
    | _ => exact hs
  · exact hs

/-- While a request is in flight no event other than its settlement ends the
flight, sets a result or an error; and when no show-results timer is pending
none puts the results view on screen. -/
theorem flight_step (h : Host) (t : AppState) (e : Event)
    (hne : ∀ o, e ≠ .submitSettles o)
    (hJ : t.loading = true ∧ t.inFlight = 1 ∧ t.result = .null ∧ t.error = "") :
    ((step h t e).loading = true ∧ (step h t e).inFlight = 1 ∧
      (step h t e).result = .null ∧ (step h t e).error = "") ∧
    (t.showResults = false ∧ t.pendingShow = 0 →
      (step h t e).showResults = false ∧ (step h t e).pendingShow = 0) := by
  unfold step
  split
  · rename_i hen
    cases e with
    | tick => simp only [Event.apply, intervalTick]; split <;> exact ⟨hJ, id⟩
    | readyTimer => exact ⟨hJ, id⟩
    | change name value => exact ⟨hJ, id⟩
    | tabClick id => exact ⟨hJ, fun hK => hK⟩
    | probeSettles o =>
      cases o with
      | rejected => exact ⟨hJ, id⟩
      | response status =>
        simp only [Event.apply, checkBackendConnection]; split <;> exact ⟨hJ, id⟩
    | submitClick =>
      exfalso
      simp [Event.enabled, submitDisabled, hJ.1] at hen
    | submitSettles o => exact absurd rfl (hne o)
    | showTimer =>
      have hpos : 0 < t.pendingShow := by simpa [Event.enabled] using hen
      have hnz : t.pendingShow ≠ 0 := by omega
      simp only [Event.apply, showTimerFires, if_neg hnz]
      refine ⟨hJ, ?_⟩
      rintro ⟨-, hz⟩
      omega
    | newAnalysisClick =>
      refine ⟨⟨hJ.1, hJ.2.1, rfl, hJ.2.2.2⟩, ?_⟩
      rintro ⟨-, hz⟩
      exact ⟨rfl, hz⟩
  · exact ⟨hJ, id⟩

theorem flight_run (h : Host) :
    ∀ (mid : List Event) (t : AppState), (∀ e ∈ mid, ∀ o, e ≠ .submitSettles o) →
      (t.loading = true ∧ t.inFlight = 1 ∧ t.result = .null ∧ t.error = "") →
      ((run h t mid).loading = true ∧ (run h t mid).inFlight = 1 ∧
        (run h t mid).result = .null ∧ (run h t mid).error = "") ∧
      (t.showResults = false ∧ t.pendingShow = 0 →
        (run h t mid).showResults = false ∧ (run h t mid).pendingShow = 0) := by
  intro mid
  induction mid with
  | nil => intro t _ hJ; exact ⟨hJ, id⟩
  | cons e rest ih =>
    intro t hmid hJ
    obtain ⟨hJ', hK'⟩ := flight_step h t e (hmid e (List.mem_cons_self e rest)) hJ
    obtain ⟨hJ'', hK''⟩ := ih (step h t e)
      (fun e' he' => hmid e' (List.mem_cons_of_mem e he')) hJ'
    rw [run_cons]
    exact ⟨hJ'', fun hK => hK'' (hK' hK)⟩

/-- C15, as stated, fails: when the submit button is clicked again before the
show-results timer of an accepted result has fired, the timer fires while the
second request is in flight, and when that request is rejected the call ends
with the message in `error` but with `showResults` true. -/
theorem rejected_after_stale_timer :
    Reachable sampleHost (run sampleHost readyState
      (fillAndSubmit ++ [.submitSettles (.response 200 (.ok smartMugResult)), .submitClick,
        .showTimer, .submitSettles (.rejected "Failed to fetch")])) ∧
    (run sampleHost readyState
      (fillAndSubmit ++ [.submitSettles (.response 200 (.ok smartMugResult)), .submitClick,
        .showTimer, .submitSettles (.rejected "Failed to fetch")])).error =
      "Failed to fetch" ∧
    (run sampleHost readyState
      (fillAndSubmit ++ [.submitSettles (.response 200 (.ok smartMugResult)), .submitClick,
        .showTimer, .submitSettles (.rejected "Failed to fetch")])).showResults = true ∧
    (run sampleHost readyState
      (fillAndSubmit ++ [.submitSettles (.response 200 (.ok smartMugResult)), .submitClick,
        .showTimer, .submitSettles (.rejected "Failed to fetch")])).result = .null ∧
    (run sampleHost readyState
      (fillAndSubmit ++ [.submitSettles (.response 200 (.ok smartMugResult)), .submitClick,
        .showTimer, .submitSettles (.rejected "Failed to fetch")])).loading = false :=
  ⟨reachable_run sampleHost (reachable_readyState sampleHost) _, rfl, rfl, rfl, rfl⟩

/-- C15, amended: from every reachable state in which the submit button can be
clicked, whatever events happen between the click and the rejection of the
fetch with an error whose message is `message`, the call ends with `error`
equal to `message`, `result` null and `loading` false; and `showResults` is
false when no show-results timer was pending at the click.  The continuation
itself writes `error` and `loading` only. -/
theorem handleSubmit_rejected (h : Host) (message : String) :
    (∀ s mid, Reachable h s → Event.enabled s .submitClick = true →
      (∀ e ∈ mid, ∀ o, e ≠ .submitSettles o) →
      (run h s (.submitClick :: (mid ++ [.submitSettles (.rejected message)]))).error =
        message ∧
      (run h s (.submitClick :: (mid ++ [.submitSettles (.rejected message)]))).result =
        .null ∧
      (run h s (.submitClick :: (mid ++ [.submitSettles (.rejected message)]))).loading =
        false ∧
      (s.pendingShow = 0 →
        (run h s (.submitClick ::
          (mid ++ [.submitSettles (.rejected message)]))).showResults = false)) ∧
    (∀ s, (submitSettle h (.rejected message) s).error = message ∧
      (submitSettle h (.rejected message) s).loading = false ∧
      (submitSettle h (.rejected message) s).result = s.result ∧
      (submitSettle h (.rejected message) s).showResults = s.showResults ∧
      (submitSettle h (.rejected message) s).pendingShow = s.pendingShow) := by
  refine ⟨?_, fun s => ⟨rfl, rfl, rfl, rfl, rfl⟩⟩
  intro s mid hs hen hmid
  have hflight := inFlight_reachable h s hs
  have hen' := hen
  simp only [Event.enabled, formShown, submitDisabled, Bool.and_eq_true,
    Bool.not_eq_true', Bool.or_eq_false_iff] at hen'
  have hload : s.loading = false := hen'.2.1.1.1.1
  rw [hload] at hflight
  simp only [Bool.false_eq_true, if_false] at hflight
  have hclick : step h s .submitClick = { submitBegin s with inFlight := s.inFlight + 1 } := by
    unfold step
    rw [if_pos hen]
    rfl
  have hJ : (step h s .submitClick).loading = true ∧ (step h s .submitClick).inFlight = 1 ∧
      (step h s .submitClick).result = .null ∧ (step h s .submitClick).error = "" := by
    rw [hclick]
    refine ⟨rfl, ?_, rfl, rfl⟩
    show s.inFlight + 1 = 1
    omega
  obtain ⟨⟨hl, hif, hres, -⟩, hK⟩ := flight_run h mid (step h s .submitClick) hmid hJ
  rw [run_cons, run_append, run_cons, run_nil]
  generalize run h (step h s .submitClick) mid = t at hl hif hres hK
  have hsettle : step h t (.submitSettles (.rejected message)) =
      { submitSettle h (.rejected message) t with inFlight := t.inFlight - 1 } := by
    unfold step
    have hen2 : Event.enabled t (.submitSettles (.rejected message)) = true := by
      simp [Event.enabled, hif]
    rw [if_pos hen2]
    rfl
  rw [hsettle]
  refine ⟨rfl, hres, rfl, ?_⟩
  intro hps
  have hbegin : (step h s .submitClick).showResults = false ∧
      (step h s .submitClick).pendingShow = 0 := by
    rw [hclick]
    exact ⟨rfl, hps⟩
  exact (hK hbegin).1

/-- C15, amended, at the scenario of the specification, with the price edited
while the request is in flight. -/
theorem handleSubmit_rejected_witness :
    Event.enabled filledState .submitClick = true ∧ filledState.pendingShow = 0 ∧
    (run sampleHost filledState
      (.submitClick :: ([.change "price" "12"] ++
        [.submitSettles (.rejected "Failed to fetch")]))).error = "Failed to fetch" ∧
    (run sampleHost filledState
      (.submitClick :: ([.change "price" "12"] ++
        [.submitSettles (.rejected "Failed to fetch")]))).showResults = false := by
  have hw := (handleSubmit_rejected sampleHost "Failed to fetch").1 filledState
    [.change "price" "12"] (reachable_run sampleHost (reachable_readyState sampleHost) _) rfl
    (by
      intro e he o hc
      rw [List.mem_singleton] at he
      rw [he] at hc
      cases hc)
  exact ⟨rfl, rfl, hw.1, hw.2.2.2 rfl⟩

end CopyFlow
